import Mathlib

set_option maxRecDepth 8000

/-!
Verification of the data-integrator charm (`src/charm.py`, `src/literals.py`).

The charm state is embedded shallowly: relation databags are association
lists of string key/value pairs, the Juju model is a `CharmState` record, and
each hook handler of `IntegratorCharm` becomes a function on `CharmState`.
Paths on which the Python code would raise an unhandled exception are
represented by `none` in an `Option` result.
-/

namespace DataIntegrator

/-- Unit statuses used by the charm (from `ops`): `ActiveStatus()` carries no
message, `BlockedStatus`/`WaitingStatus` carry one.  The charm only ever
constructs active and blocked statuses; `waiting` exists in the host library. -/
inductive Status where
  | active : Status
  | blocked : String → Status
  | waiting : String → Status
deriving DecidableEq

/-- Whether a status is a waiting status. -/
def Status.isWaiting : Status → Bool
  | .waiting _ => true
  | _ => false

/-- Truthiness of an optional string exactly as Python evaluates it:
`None` and the empty string are falsy, every other string is truthy. -/
def optTruthy : Option String → Bool
  | none => false
  | some s => s != ""

/-- Python `str()` of an optional string, as used in f-strings: `None`
renders as the four characters "None". -/
def pyStr : Option String → String
  | none => "None"
  | some v => v

/-- A relation databag: an insertion-ordered mapping from string keys to
string values (Python dict of str to str). -/
abbrev Databag := List (String × String)

/-- Dictionary lookup (`d.get(k)`). -/
def dbGet (d : Databag) (k : String) : Option String :=
  match d.find? (fun p => p.1 == k) with
  | some p => some p.2
  | none => none

/-- Whether the key is present. -/
def dbHasKey (d : Databag) (k : String) : Bool :=
  d.any (fun p => p.1 == k)

/-- Dictionary assignment (`d[k] = v`): replaces the value in place if the
key exists, appends otherwise, as a Python dict does. -/
def dbSet (d : Databag) (k v : String) : Databag :=
  if dbHasKey d k then d.map (fun p => if p.1 == k then (k, v) else p)
  else d ++ [(k, v)]

/-- Dictionary merge (`d.update(kvs)`). -/
def dbUpdate (d : Databag) (kvs : List (String × String)) : Databag :=
  kvs.foldl (fun acc p => dbSet acc p.1 p.2) d

/-- Dictionary deletion of a key (all occurrences; a Python dict has at most
one). -/
def dbErase (d : Databag) (k : String) : Databag :=
  d.filter (fun p => p.1 != k)

/-- One relation with a backend: the data published by the remote
application (read by `fetch_relation_field` / `fetch_relation_data`) and
this application's outbound data (read by `fetch_my_relation_field`,
written by `update_relation_data`). -/
structure Relation where
  remote : Databag
  localData : Databag
deriving DecidableEq

/-- The relation lists of the six database-family requirers, in the order of
`DATABASES` in `literals.py`. -/
structure DBRels where
  mysql : List Relation
  mongodb : List Relation
  postgresql : List Relation
  mongos : List Relation
  zookeeper : List Relation
  kyuubi : List Relation
deriving DecidableEq

/-- The charm configuration options read by `IntegratorCharm` (each is
`self.model.config.get(key, None)`). -/
structure Config where
  databaseName : Option String
  topicName : Option String
  indexName : Option String
  pfxName : Option String
  entityType : Option String
  entityPermissions : Option String
  extraUserRoles : Option String
  extraGroupRoles : Option String
  consumerGroupPfx : Option String
  mtlsCert : Option String
  requestedEntitiesSecret : Option String
deriving DecidableEq

/-- A configuration with every option unset. -/
def Config.empty : Config :=
  ⟨none, none, none, none, none, none, none, none, none, none, none⟩

/-- The observable state of the charm and its Juju model: configuration,
the relation lists of every requirer, the peer relation databags, the
model's secret store, leadership, and whether the Juju version supports
secrets (without secret support the `self.etcd` requirer is never created). -/
structure CharmState where
  config : Config
  dbs : DBRels
  kafka : List Relation
  opensearch : List Relation
  etcd : List Relation
  hasPeer : Bool
  peerApp : Databag
  peerUnit : Databag
  secrets : List (String × List (String × String))
  isLeader : Bool
  hasSecrets : Bool
  unitStatus : Status
deriving DecidableEq

/-! ### Literals (`literals.py`) -/

def PEER : String := "data-integrator-peers"
def KAFKA : String := "kafka"
def OPENSEARCH : String := "opensearch"

/-- Modelled from the spec: the `ETCD` relation-name literal that `charm.py`
imports from `literals.py` is absent from the revision of `literals.py`
under `src/`; the distributed key-value backend relation is named "etcd". -/
def ETCD : String := "etcd"

/-- `DATABASES = [MYSQL, MONGODB, POSTGRESQL, MONGOS, ZOOKEEPER, KYUUBI]`. -/
def DATABASES : List String :=
  ["mysql", "mongodb", "postgresql", "mongos", "zookeeper", "kyuubi"]

/-- `self.databases`: the database requirers keyed by relation name, in
`DATABASES` order. -/
def database_requirers (s : CharmState) : List (String × List Relation) :=
  [("mysql", s.dbs.mysql), ("mongodb", s.dbs.mongodb),
   ("postgresql", s.dbs.postgresql), ("mongos", s.dbs.mongos),
   ("zookeeper", s.dbs.zookeeper), ("kyuubi", s.dbs.kyuubi)]

/-! ### Configuration properties (`charm.py` lines 441-507) -/

def database_name (s : CharmState) : Option String := s.config.databaseName
def topic_name (s : CharmState) : Option String := s.config.topicName
def index_name (s : CharmState) : Option String := s.config.indexName
def entity_type (s : CharmState) : Option String := s.config.entityType
def entity_permissions (s : CharmState) : Option String := s.config.entityPermissions
def extra_user_roles (s : CharmState) : Option String := s.config.extraUserRoles
def extra_group_roles (s : CharmState) : Option String := s.config.extraGroupRoles
def consumer_group_pfx (s : CharmState) : Option String := s.config.consumerGroupPfx

/-- The `prefix` property: the configured key prefix (option "prefix-name"). -/
def pfx_name (s : CharmState) : Option String := s.config.pfxName

/-- `requested_entities_secret_content`: reads the secret referenced by the
"requested-entities-secret" option and returns its first key/value pair;
`(None, None)` when the option is unset, the secret is inaccessible
(`ModelError` is caught), or the content is empty. -/
def requested_entities_secret_content (s : CharmState) :
    Option String × Option String :=
  match s.config.requestedEntitiesSecret with
  | none => (none, none)
  | some uri =>
    if uri = "" then (none, none)
    else
      match (s.secrets.find? (fun p => p.1 == uri)).map (fun p => p.2) with
      | none => (none, none)
      | some content =>
        match content.head? with
        | none => (none, none)
        | some kv => (some kv.1, some kv.2)

/-! ### The mtls-cert option (`mtls_client_cert`, lines 494-502)

`mtls_client_cert` runs `re.match` with pattern `(-+(BEGIN|END) [A-Z ]+-+)`
against the configured certificate and either unescapes literal newlines or
base64-decodes the value.  The decoding helpers below model the Python
standard library routines used there; a decoding error (`binascii.Error`,
`UnicodeDecodeError`) is an unhandled exception, represented by `none`. -/

/-- One character of the class `[A-Z ]`. -/
def az_sp (c : Char) : Bool := c.isUpper || c = ' '

/-- After at least one `[A-Z ]` character has been consumed: succeed on a
dash, or consume further `[A-Z ]` characters. -/
def scan_az_dash : List Char → Bool
  | [] => false
  | c :: rest => c = '-' || (az_sp c && scan_az_dash rest)

/-- Matches `[A-Z ]+-+` at the head of the character list (one class
character, then more class characters until a dash). -/
def az_then_dash : List Char → Bool
  | [] => false
  | c :: rest => az_sp c && scan_az_dash rest

/-- Consumes the alternation `(BEGIN|END) ` at the head of the list. -/
def kw_split : List Char → Option (List Char)
  | 'B' :: 'E' :: 'G' :: 'I' :: 'N' :: ' ' :: rest => some rest
  | 'E' :: 'N' :: 'D' :: ' ' :: rest => some rest
  | _ => none

/-- After the first dash: consume further dashes, then the keyword and the
tail of the pattern. -/
def after_dashes : List Char → Bool
  | [] => false
  | c :: rest =>
    if c = '-' then after_dashes rest
    else
      match kw_split (c :: rest) with
      | some rest2 => az_then_dash rest2
      | none => false

/-- `re.match(r"(-+(BEGIN|END) [A-Z ]+-+)", cert)` is truthy: the pattern
matches at the start of the string. -/
def cert_header_match (cert : String) : Bool :=
  match cert.data with
  | '-' :: rest => after_dashes rest
  | _ => false

/-- `cert.replace("\\n", "\n")` on the character list. -/
def replace_esc_nl : List Char → List Char
  | [] => []
  | '\\' :: 'n' :: rest => '\n' :: replace_esc_nl rest
  | c :: rest => c :: replace_esc_nl rest

/-- `cert.replace("\\n", "\n")`. -/
def replace_escaped_newlines (cert : String) : String :=
  String.mk (replace_esc_nl cert.data)

/-- A base64-alphabet character. -/
def is_b64_char (c : Char) : Bool :=
  c.isUpper || c.isLower || c.isDigit || c = '+' || c = '/'

/-- The 6-bit value of a base64-alphabet character. -/
def b64_char_val (c : Char) : Nat :=
  if c.isUpper then c.toNat - 65
  else if c.isLower then c.toNat - 97 + 26
  else if c.isDigit then c.toNat - 48 + 52
  else if c = '+' then 62
  else 63

/-- Turns a list of 6-bit values (the payload before any padding) into
bytes; a single leftover value is invalid base64. -/
def b64_groups : List Nat → Option (List Nat)
  | [] => some []
  | [_] => none
  | [a, b] => some [a * 4 + b / 16]
  | [a, b, c] => some [a * 4 + b / 16, (b % 16) * 16 + c / 4]
  | a :: b :: c :: d :: rest =>
    match b64_groups rest with
    | some tail =>
      some ([a * 4 + b / 16, (b % 16) * 16 + c / 4, (c % 4) * 64 + d] ++ tail)
    | none => none

/-- Modelled from the spec: `base64.b64decode` as the charm uses it —
characters outside the alphabet are discarded, the padded length must be a
multiple of four, and the 6-bit groups are reassembled into bytes; `none`
is the `binascii.Error` raised on invalid padding. -/
def b64_decode_bytes (cs : List Char) : Option (List Nat) :=
  let kept := cs.filter (fun c => is_b64_char c || c = '=')
  if kept.length % 4 != 0 then none
  else b64_groups ((kept.takeWhile (fun c => c != '=')).map b64_char_val)

/-- A UTF-8 continuation byte. -/
def utf8_cont (b : Nat) : Bool := 0x80 ≤ b && b < 0xC0

/-- UTF-8 decoding with explicit fuel (the fuel bounds the number of
decoding steps; it is initialised to the byte count).  Rejects truncated
sequences, overlong encodings, surrogates and out-of-range code points,
as Python's strict "utf-8" codec does; `none` is a `UnicodeDecodeError`. -/
def utf8_decode_fuel : Nat → List Nat → Option (List Char)
  | _, [] => some []
  | 0, _ :: _ => none
  | fuel + 1, b :: rest =>
    if b < 0x80 then
      (utf8_decode_fuel fuel rest).map (fun cs => Char.ofNat b :: cs)
    else if b < 0xC2 then none
    else if b < 0xE0 then
      match rest with
      | b2 :: rest2 =>
        if utf8_cont b2 then
          (utf8_decode_fuel fuel rest2).map
            (fun cs => Char.ofNat ((b - 0xC0) * 64 + (b2 - 0x80)) :: cs)
        else none
      | [] => none
    else if b < 0xF0 then
      match rest with
      | b2 :: b3 :: rest3 =>
        if utf8_cont b2 && utf8_cont b3 then
          let cp := (b - 0xE0) * 4096 + (b2 - 0x80) * 64 + (b3 - 0x80)
          if cp < 0x800 || (0xD800 ≤ cp && cp ≤ 0xDFFF) then none
          else (utf8_decode_fuel fuel rest3).map (fun cs => Char.ofNat cp :: cs)
        else none
      | _ => none
    else if b < 0xF5 then
      match rest with
      | b2 :: b3 :: b4 :: rest4 =>
        if utf8_cont b2 && utf8_cont b3 && utf8_cont b4 then
          let cp := (b - 0xF0) * 262144 + (b2 - 0x80) * 4096 +
            (b3 - 0x80) * 64 + (b4 - 0x80)
          if cp < 0x10000 || 0x10FFFF < cp then none
          else (utf8_decode_fuel fuel rest4).map (fun cs => Char.ofNat cp :: cs)
        else none
      | _ => none
    else none

/-- Modelled from the spec: `bytes.decode("utf-8")`. -/
def utf8_decode (bs : List Nat) : Option (List Char) :=
  utf8_decode_fuel bs.length bs

/-- Python whitespace stripped by `str.strip()`. -/
def py_ws (c : Char) : Bool :=
  c = ' ' || c = '\t' || c = '\n' || c = '\r' ||
    c = Char.ofNat 11 || c = Char.ofNat 12

/-- `str.strip()`. -/
def py_strip (cs : List Char) : List Char :=
  ((cs.dropWhile py_ws).reverse.dropWhile py_ws).reverse

/-- `mtls_client_cert` (lines 494-502): `None` when the option is unset or
empty; if the value matches the PEM header pattern, escaped newlines are
replaced; otherwise the value is base64-decoded, UTF-8-decoded and
stripped.  The outer `none` is an unhandled decoding exception; the inner
option is the property's Python return value. -/
def mtls_client_cert (s : CharmState) : Option (Option String) :=
  match s.config.mtlsCert with
  | none => some none
  | some cert =>
    if cert = "" then some none
    else if cert_header_match cert then
      some (some (replace_escaped_newlines cert))
    else
      match b64_decode_bytes cert.data with
      | none => none
      | some bytes =>
        match utf8_decode bytes with
        | none => none
        | some cs => some (some (String.mk (py_strip cs)))

/-! ### Library predicates modelled from the spec -/

/-- Modelled from the spec: `KafkaRequires.is_topic_value_acceptable` lives
in the `data_interfaces` charm library, which is not under `src/`; the unit
and integration tests show that the wildcard topic "*" is the unacceptable
value ("Please pass an acceptable topic value"). -/
def is_topic_value_acceptable (topic : String) : Bool :=
  topic != "*"

/-- The `topic` argument the constructor passes to `KafkaRequires`
(lines 104-111): the configured topic if it is not `None` and acceptable,
the empty string otherwise. -/
def kafka_init_topic (c : Config) : String :=
  match c.topicName with
  | some t => if is_topic_value_acceptable t then t else ""
  | none => ""

/-! ### Relation accessors (`charm.py` lines 509-654) -/

/-- `kafka_relation`: the first kafka relation, if any. -/
def kafka_relation (s : CharmState) : Option Relation := s.kafka.head?

/-- `opensearch_relation`: the first opensearch relation, if any. -/
def opensearch_relation (s : CharmState) : Option Relation := s.opensearch.head?

/-- `etcd_relation`: the first etcd relation, guarded by secret support
(without secrets the etcd requirer is never constructed). -/
def etcd_relation (s : CharmState) : Option Relation :=
  if s.hasSecrets then s.etcd.head? else none

/-- `topic_active`: the "topic" field the kafka backend published. -/
def topic_active (s : CharmState) : Option String :=
  match kafka_relation s with
  | some r => dbGet r.remote "topic"
  | none => none

/-- `index_active`: the "index" field the opensearch backend published. -/
def index_active (s : CharmState) : Option String :=
  match opensearch_relation s with
  | some r => dbGet r.remote "index"
  | none => none

/-- `prefix_active`: the "prefix" field of this application's own etcd
databag (`fetch_my_relation_field`). -/
def pfx_active (s : CharmState) : Option String :=
  match etcd_relation s with
  | some r => dbGet r.localData "prefix"
  | none => none

/-- The loop of `_get_active_value` over `self.databases`: the first
requirer that has relations wins and its first relation is returned. -/
def first_active_requirer : List (String × List Relation) → Option Relation
  | [] => none
  | (_, rels) :: rest =>
    match rels with
    | r :: _ => some r
    | [] => first_active_requirer rest

/-- `_get_active_value` (lines 165-178): the value of the given key on the
first backend that has a relation; database, kafka and opensearch values
are read from the remote databag, the etcd value from our own databag. -/
def _get_active_value (s : CharmState) (key : String) : Option String :=
  match first_active_requirer (database_requirers s) with
  | some r => dbGet r.remote key
  | none =>
    match kafka_relation s with
    | some r => dbGet r.remote key
    | none =>
      match opensearch_relation s with
      | some r => dbGet r.remote key
      | none =>
        match etcd_relation s with
        | some r => dbGet r.localData key
        | none => none

def entity_type_active (s : CharmState) : Option String :=
  _get_active_value s "entity-type"

def extra_user_roles_active (s : CharmState) : Option String :=
  _get_active_value s "extra-user-roles"

def extra_group_roles_active (s : CharmState) : Option String :=
  _get_active_value s "extra-group-roles"

/-- The dict comprehension of `databases_active` over a requirer list:
requirers with a relation whose remote "database" field is truthy. -/
def databases_active_list : List (String × List Relation) → List (String × String)
  | [] => []
  | (name, rels) :: rest =>
    match rels with
    | r :: _ =>
      (match dbGet r.remote "database" with
       | some v => if v = "" then databases_active_list rest
                   else (name, v) :: databases_active_list rest
       | none => databases_active_list rest)
    | [] => databases_active_list rest

/-- `databases_active` (lines 537-545). -/
def databases_active (s : CharmState) : List (String × String) :=
  databases_active_list (database_requirers s)

/-- `_check_for_credentials` (lines 599-614): some relation carries either
a username and password or an entity name. -/
def _check_for_credentials (rels : List Relation) : Bool :=
  rels.any (fun r =>
    (optTruthy (dbGet r.remote "username") && optTruthy (dbGet r.remote "password")) ||
      optTruthy (dbGet r.remote "entity-name"))

/-- `is_database_related` (lines 590-597). -/
def is_database_related (s : CharmState) : Bool :=
  (database_requirers s).any (fun p => _check_for_credentials p.2)

/-- `is_kafka_related`. -/
def is_kafka_related (s : CharmState) : Bool :=
  _check_for_credentials s.kafka

/-- `is_opensearch_related`. -/
def is_opensearch_related (s : CharmState) : Bool :=
  _check_for_credentials s.opensearch

/-- `is_etcd_related` (lines 626-636): the etcd relation exists and has
published all five of username, uris, endpoints, tls-ca and version
(`is not None`, so empty strings count). -/
def is_etcd_related (s : CharmState) : Bool :=
  match etcd_relation s with
  | none => false
  | some r =>
    (dbGet r.remote "username").isSome && (dbGet r.remote "uris").isSome &&
      (dbGet r.remote "endpoints").isSome && (dbGet r.remote "tls-ca").isSome &&
      (dbGet r.remote "version").isSome

/-! ### Status computation (`get_status`, lines 180-244) -/

/-- `_changes_role_info` (lines 152-163): a truthy active role value that
differs from the corresponding configuration option. -/
def _changes_role_info (s : CharmState) : Bool :=
  (optTruthy (entity_type_active s) && (entity_type_active s != entity_type s)) ||
    (optTruthy (extra_user_roles_active s) && (extra_user_roles_active s != extra_user_roles s)) ||
    (optTruthy (extra_group_roles_active s) && (extra_group_roles_active s != extra_group_roles s))

/-- The blocking message of the mismatch loop (lines 237-243); a `None`
active name renders as "None" as in the Python f-string. -/
def change_message (name_type : String) (active_name : Option String) : String :=
  "To change " ++ name_type ++ ": " ++ pyStr active_name ++
    ", please remove relation and add it again"

/-- Mismatch tuple entry for Kafka (lines 209-214). -/
def kafka_mismatch (s : CharmState) : Bool :=
  is_kafka_related s && (topic_active s != topic_name s)

/-- Mismatch tuple entry for OpenSearch (lines 215-220). -/
def opensearch_mismatch (s : CharmState) : Bool :=
  is_opensearch_related s && (index_active s != index_name s)

/-- Mismatch tuple entry for etcd (lines 221-226). -/
def etcd_mismatch (s : CharmState) : Bool :=
  is_etcd_related s && (pfx_active s != pfx_name s)

/-- Mismatch tuple entry for the database family (lines 227-235): some
active database name differs from the configured one. -/
def database_mismatch (s : CharmState) : Bool :=
  is_database_related s &&
    (databases_active s).any (fun p => (some p.2 : Option String) != database_name s)

/-- The active name shown for the database family: the first active
database value, or `None`. -/
def database_active_name (s : CharmState) : Option String :=
  (databases_active s).head?.map (fun p => p.2)

/-- `get_status` (lines 180-244), the status resolver: the checks run in
source order and the first that fires wins. -/
def get_status (s : CharmState) : Status :=
  if optTruthy s.config.requestedEntitiesSecret && !s.hasSecrets then
    Status.blocked "Cannot use requested-entities-secret without secrets"
  else if optTruthy s.config.requestedEntitiesSecret &&
      !optTruthy (requested_entities_secret_content s).1 then
    Status.blocked "Unable to access requested-entities-secret"
  else if !(optTruthy (topic_name s) || optTruthy (database_name s) ||
      optTruthy (index_name s) || optTruthy (pfx_name s)) then
    Status.blocked "Please specify either topic, index, database name, or prefix"
  else if optTruthy (topic_name s) &&
      !is_topic_value_acceptable ((topic_name s).getD "") then
    Status.blocked "Please pass an acceptable topic value"
  else if !(is_database_related s || is_kafka_related s ||
      is_opensearch_related s || is_etcd_related s) then
    Status.blocked "Please relate the data-integrator with the desired product"
  else if _changes_role_info s then
    Status.blocked "To change role info, please remove relation and add it again"
  else if kafka_mismatch s then
    Status.blocked (change_message "topic" (topic_active s))
  else if opensearch_mismatch s then
    Status.blocked (change_message "index" (index_active s))
  else if etcd_mismatch s then
    Status.blocked (change_message "prefix" (pfx_active s))
  else if database_mismatch s then
    Status.blocked (change_message "database name" (database_active_name s))
  else Status.active

/-- `self.unit.status = ...`. -/
def set_status (s : CharmState) (st : Status) : CharmState :=
  { s with unitStatus := st }

/-! ### Propagation of configuration into relation data (lines 250-337) -/

/-- Modelled from the spec: `update_relation_data` of the requirer library
writes the given fields into this application's side of the relation
databag. -/
def rel_write (data : List (String × String)) (r : Relation) : Relation :=
  { r with localData := dbUpdate r.localData data }

/-- `database_relations` iterates the first relation of each requirer that
has one; updating relation data for them rewrites exactly those heads. -/
def update_first_relation (rels : List Relation) (data : List (String × String)) :
    List Relation :=
  match rels with
  | [] => []
  | r :: rest => rel_write data r :: rest

/-- The outbound payload of `_on_config_changed_database` (lines 268-282).
The `database` value is guarded truthy by the caller. -/
def database_relation_payload (s : CharmState) : List (String × String) :=
  if optTruthy (entity_type s) then
    [("database", (database_name s).getD ""),
     ("entity-type", (entity_type s).getD ""),
     ("entity-permissions", (entity_permissions s).getD ""),
     ("extra-user-roles", (extra_user_roles s).getD ""),
     ("extra-group-roles", (extra_group_roles s).getD "")]
  else
    [("database", (database_name s).getD ""),
     ("extra-user-roles", (extra_user_roles s).getD "")]

/-- `_on_config_changed_database` (lines 268-285): write the payload to the
first relation of every database requirer that has one. -/
def _on_config_changed_database (s : CharmState) : CharmState :=
  let data := database_relation_payload s
  let written : DBRels :=
    { mysql := update_first_relation s.dbs.mysql data
      mongodb := update_first_relation s.dbs.mongodb data
      postgresql := update_first_relation s.dbs.postgresql data
      mongos := update_first_relation s.dbs.mongos data
      zookeeper := update_first_relation s.dbs.zookeeper data
      kyuubi := update_first_relation s.dbs.kyuubi data }
  { s with dbs := written }

/-- The outbound payload of `_on_config_changed_topic` (lines 292-305). -/
def topic_relation_payload (s : CharmState) : List (String × String) :=
  if optTruthy (entity_type s) then
    [("topic", (topic_name s).getD ""),
     ("entity-type", (entity_type s).getD ""),
     ("entity-permissions", (entity_permissions s).getD ""),
     ("extra-user-roles", (extra_user_roles s).getD ""),
     ("extra-group-roles", (extra_group_roles s).getD "")]
  else
    [("topic", (topic_name s).getD ""),
     ("extra-user-roles", (extra_user_roles s).getD ""),
     ("consumer-group-prefix", (consumer_group_pfx s).getD "")]

/-- `_on_config_changed_topic` (lines 287-308): returns without writing when
the topic value is unacceptable; otherwise writes the payload to every
kafka relation. -/
def _on_config_changed_topic (s : CharmState) : CharmState :=
  if !is_topic_value_acceptable ((topic_name s).getD "") then s
  else
    { s with kafka := s.kafka.map (rel_write (topic_relation_payload s)) }

/-- The outbound payload of `_on_config_changed_index` (lines 312-324). -/
def index_relation_payload (s : CharmState) : List (String × String) :=
  if optTruthy (entity_type s) then
    [("index", (index_name s).getD ""),
     ("entity-type", (entity_type s).getD ""),
     ("entity-permissions", (entity_permissions s).getD ""),
     ("extra-user-roles", (extra_user_roles s).getD ""),
     ("extra-group-roles", (extra_group_roles s).getD "")]
  else
    [("index", (index_name s).getD ""),
     ("extra-user-roles", (extra_user_roles s).getD "")]

/-- `_on_config_changed_index` (lines 310-327): writes the payload to every
opensearch relation. -/
def _on_config_changed_index (s : CharmState) : CharmState :=
  { s with opensearch := s.opensearch.map (rel_write (index_relation_payload s)) }

/-- Modelled from the spec: `EtcdRequires.set_mtls_cert` stores the client
certificate in the outbound databag; with no certificate the field is
absent. -/
def set_mtls_cert_rel (cert : Option String) (r : Relation) : Relation :=
  match cert with
  | some c => { r with localData := dbSet r.localData "mtls-cert" c }
  | none => { r with localData := dbErase r.localData "mtls-cert" }

/-- The outbound payload of `_on_config_changed_prefix` (lines 331-333).
The `prefix` value is guarded truthy by the caller. -/
def pfx_relation_payload (s : CharmState) : List (String × String) :=
  [("prefix", (pfx_name s).getD "")]

/-- `_on_config_changed_prefix` (lines 329-337): for every etcd relation,
write the prefix and store the mtls certificate.  Without secret support
`self.etcd` was never assigned, so touching it raises `AttributeError`
(`none`); a certificate-decoding exception inside the loop is also `none`. -/
def _on_config_changed_pfx (s : CharmState) : Option CharmState :=
  if !s.hasSecrets then none
  else if s.etcd.isEmpty then some s
  else
    match mtls_client_cert s with
    | none => none
    | some cert =>
      let written := s.etcd.map (fun r =>
        set_mtls_cert_rel cert (rel_write (pfx_relation_payload s) r))
      some { s with etcd := written }

/-- Line 259-260: `if self.database_name and not self.databases_active`. -/
def step_database (s : CharmState) : CharmState :=
  if optTruthy (database_name s) && (databases_active s).isEmpty then
    _on_config_changed_database s
  else s

/-- Line 261-262: `if self.topic_name and not self.topic_active`. -/
def step_topic (s : CharmState) : CharmState :=
  if optTruthy (topic_name s) && !optTruthy (topic_active s) then
    _on_config_changed_topic s
  else s

/-- Line 263-264: `if self.index_name and not self.index_active`. -/
def step_index (s : CharmState) : CharmState :=
  if optTruthy (index_name s) && !optTruthy (index_active s) then
    _on_config_changed_index s
  else s

/-- Lines 265-266: `if self.prefix and (not self.prefix_active or
self.mtls_client_cert)`, with Python's short-circuit evaluation, so a
certificate-decoding exception surfaces only where the property is read. -/
def step_pfx (s : CharmState) : Option CharmState :=
  if optTruthy (pfx_name s) then
    if !optTruthy (pfx_active s) then _on_config_changed_pfx s
    else
      match mtls_client_cert s with
      | none => none
      | some c => if optTruthy c then _on_config_changed_pfx s else some s
  else some s

/-- The four guarded propagation steps of `_on_config_changed`
(lines 258-266), in source order, each guard evaluated on the state the
previous step left. -/
def reconcile_writes (s : CharmState) : Option CharmState :=
  step_pfx (step_index (step_topic (step_database s)))

/-- `_on_config_changed` (lines 250-266): set the unit status from
`get_status`, then, on the leader only, run the guarded propagation steps. -/
def _on_config_changed (s : CharmState) : Option CharmState :=
  let t := set_status s (get_status s)
  if !t.isLeader then some t
  else reconcile_writes t

/-! ### Peer databag bookkeeping (lines 147-150, 416-439, 639-678) -/

/-- `app_peer_data`: the application databag of the peer relation, or a
fresh empty dict when the peer relation does not exist. -/
def app_peer_data (s : CharmState) : Databag :=
  if s.hasPeer then s.peerApp else []

/-- `unit_peer_data`. -/
def unit_peer_data (s : CharmState) : Databag :=
  if s.hasPeer then s.peerUnit else []

/-- `set_secret` with scope "app" (lines 665-678): a falsy value deletes
the key (`KeyError`, hence `none`, when absent); otherwise the key is
updated.  Without a peer relation the write lands in a temporary empty
dict and is lost. -/
def set_secret_app (s : CharmState) (key : String) (value : Option String) :
    Option CharmState :=
  if !optTruthy value then
    match dbGet (app_peer_data s) key with
    | none => none
    | some _ =>
      some (if s.hasPeer then { s with peerApp := dbErase s.peerApp key } else s)
  else
    some (if s.hasPeer then
      { s with peerApp := dbSet s.peerApp key (value.getD "") } else s)

/-- `_update_relation_status` (lines 416-420): leader-only write of the
relation's status tag into the peer application databag. -/
def _update_relation_status (s : CharmState) (relName status : String) :
    Option CharmState :=
  if !s.isLeader then some s
  else set_secret_app s relName (some status)

/-- `_on_relation_broken` (lines 147-150): record `BROKEN` for the relation. -/
def _on_relation_broken (s : CharmState) (relName : String) : Option CharmState :=
  _update_relation_status s relName "BROKEN"

/-- `_on_database_created` (lines 381-386) and its topic/index/entity/etcd
siblings: re-run the reconcile handler, then record `ACTIVE` for the
relation that provided credentials. -/
def _on_database_created (s : CharmState) (relName : String) : Option CharmState := do
  let s1 ← _on_config_changed s
  _update_relation_status s1 relName "ACTIVE"

/-- Modelled from the spec: `self.model.relations[name]` — the host
runtime's relation table.  Truthiness of the list for each relation name
declared by the charm; indexing an undeclared name raises `KeyError`
(`none`). -/
def model_relations_nonempty (s : CharmState) (name : String) : Option Bool :=
  if name = "mysql" then some (!s.dbs.mysql.isEmpty)
  else if name = "mongodb" then some (!s.dbs.mongodb.isEmpty)
  else if name = "postgresql" then some (!s.dbs.postgresql.isEmpty)
  else if name = "mongos" then some (!s.dbs.mongos.isEmpty)
  else if name = "zookeeper" then some (!s.dbs.zookeeper.isEmpty)
  else if name = "kyuubi" then some (!s.dbs.kyuubi.isEmpty)
  else if name = "kafka" then some (!s.kafka.isEmpty)
  else if name = "opensearch" then some (!s.opensearch.isEmpty)
  else if name = "etcd" then some (!s.etcd.isEmpty)
  else if name = "data-integrator-peers" then some s.hasPeer
  else none

/-- The loop of `_on_peer_relation_changed` over the relations recorded as
`BROKEN`: entries whose relation list is now empty are rewritten to
`REMOVED`, the rest are skipped. -/
def process_removed (s : CharmState) : List String → Option CharmState
  | [] => some s
  | n :: rest =>
    match model_relations_nonempty s n with
    | none => none
    | some true => process_removed s rest
    | some false =>
      match set_secret_app s n (some "REMOVED") with
      | none => none
      | some s2 => process_removed s2 rest

/-- `_on_peer_relation_changed` (lines 422-439): leader-only; collect the
peer entries recorded `BROKEN`, and if there are any, refresh the unit
status and rewrite the tags of relations that no longer exist to
`REMOVED`. -/
def _on_peer_relation_changed (s : CharmState) : Option CharmState :=
  if !s.isLeader then some s
  else
    let removed := ((app_peer_data s).filter (fun p => p.2 == "BROKEN")).map (fun p => p.1)
    if removed.isEmpty then some s
    else process_removed (set_status s (get_status s)) removed

/-! ### The get-credentials action (lines 339-379) -/

/-- A value in the action result dict: the "ok" flag, a full relation
databag, or the etcd dict whose values are optional strings. -/
inductive ResVal where
  | flag : Bool → ResVal
  | fields : Databag → ResVal
  | optFields : List (String × Option String) → ResVal
deriving DecidableEq

/-- The outcome of an action: `event.fail(msg)` together with the results
that were set, or a successful `event.set_results`. -/
inductive ActionOutcome where
  | failed : String → List (String × ResVal) → ActionOutcome
  | results : List (String × ResVal) → ActionOutcome
deriving DecidableEq

/-- `list(requirer.fetch_relation_data().values())[0]`: the full remote
databag of the requirer's first relation. -/
def fetch_relation_data_first (rels : List Relation) : Option Databag :=
  rels.head?.map (fun r => r.remote)

/-- `self.databases[name]`. -/
def lookup_requirer (s : CharmState) (name : String) : Option (List Relation) :=
  ((database_requirers s).find? (fun p => p.1 == name)).map (fun p => p.2)

/-- Lookup in an action result dict. -/
def lookupRes (res : List (String × ResVal)) (k : String) : Option ResVal :=
  (res.find? (fun p => p.1 == k)).map (fun p => p.2)

/-- `any([self.database_name, self.topic_name, self.index_name, self.prefix])`
(line 341). -/
def any_resource_configured (s : CharmState) : Bool :=
  optTruthy (database_name s) || optTruthy (topic_name s) ||
    optTruthy (index_name s) || optTruthy (pfx_name s)

/-- `any([is_database_related, is_kafka_related, is_opensearch_related,
is_etcd_related])` (lines 197-202 and 348-353). -/
def any_backend_related (s : CharmState) : Bool :=
  is_database_related s || is_kafka_related s ||
    is_opensearch_related s || is_etcd_related s

/-- `_on_get_credentials_action` (lines 339-379): the outcome reported to
the action event.  The handler body contains no write to configuration,
relation data or peer data, so it is a pure function of the state; `none`
would be an unhandled exception (an out-of-range list index or missing
dict key). -/
def _on_get_credentials_action (s : CharmState) : Option ActionOutcome :=
  if !any_resource_configured s then
    some (ActionOutcome.failed
      "The database name, topic name, index name, or prefix is not specified in the config."
      [("ok", ResVal.flag false)])
  else if !any_backend_related s then
    some (ActionOutcome.failed
      "The action can be run only after relation is created."
      [("ok", ResVal.flag false)])
  else do
    let dbPart ← (databases_active s).mapM (fun p => do
      let rels ← lookup_requirer s p.1
      let first ← fetch_relation_data_first rels
      pure (p.1, ResVal.fields first))
    let kafkaPart ← if is_kafka_related s then do
        let first ← fetch_relation_data_first s.kafka
        pure [(KAFKA, ResVal.fields first)]
      else pure []
    let osPart ← if is_opensearch_related s then do
        let first ← fetch_relation_data_first s.opensearch
        pure [(OPENSEARCH, ResVal.fields first)]
      else pure []
    let etcdPart ← if is_etcd_related s then do
        let r ← etcd_relation s
        pure [(ETCD, ResVal.optFields
          [("prefix", pfx_active s),
           ("uris", dbGet r.remote "uris"),
           ("endpoints", dbGet r.remote "endpoints"),
           ("username", dbGet r.remote "username"),
           ("tls-ca", dbGet r.remote "tls-ca"),
           ("version", dbGet r.remote "version")])]
      else pure []
    pure (ActionOutcome.results
      ((("ok", ResVal.flag true) :: dbPart) ++ kafkaPart ++ osPart ++ etcdPart))

/-- The action handler as the host runtime drives it: the outcome together
with the state the hook leaves behind.  The body of
`_on_get_credentials_action` performs no mutation, so the state passes
through unchanged. -/
def _on_get_credentials_action_run (s : CharmState) :
    Option (ActionOutcome × CharmState) :=
  (_on_get_credentials_action s).map (fun r => (r, s))

/-! ### Concrete states used as witnesses and counterexamples -/

/-- All six database requirers with no relations. -/
def noDBs : DBRels := ⟨[], [], [], [], [], []⟩

/-- A freshly deployed leader unit: empty configuration, no backend
relations, an empty peer databag, secret support available. -/
def baseState : CharmState :=
  { config := Config.empty, dbs := noDBs, kafka := [], opensearch := [],
    etcd := [], hasPeer := true, peerApp := [], peerUnit := [], secrets := [],
    isLeader := true, hasSecrets := true, unitStatus := Status.active }

/-- Empty configuration after a relation came and went: the peer databag
still remembers the removed relation. -/
def c4_cleared_state : CharmState :=
  { baseState with peerApp := [("mysql", "REMOVED")] }

/-- A kafka backend is active with negotiated topic "foo" and published
entity-type "user", while the configuration asks for topic "bar" and
entity-type "group": both a name conflict and a role conflict at once. -/
def c1_state : CharmState :=
  { baseState with
    config := { Config.empty with topicName := some "bar", entityType := some "group" }
    kafka := [⟨[("username", "u"), ("password", "p"), ("topic", "foo"),
               ("entity-type", "user")], []⟩] }

/-- A kafka backend is active with negotiated topic "foo" while the
configuration asks for topic "bar"; nothing else conflicts. -/
def c1w_state : CharmState :=
  { baseState with
    config := { Config.empty with topicName := some "bar" }
    kafka := [⟨[("username", "u"), ("password", "p"), ("topic", "foo")], []⟩] }

/-- A mysql backend has provisioned credentials but published no
"database" field; the database name is configured. -/
def c3_state : CharmState :=
  { baseState with
    config := { Config.empty with databaseName := some "foo" }
    dbs := { noDBs with mysql := [⟨[("username", "u"), ("password", "p")], []⟩] } }

/-- The round-trip scenario of the spec: database name "foo" configured
and one mysql relation active with username, password and database. -/
def c3w_state : CharmState :=
  { baseState with
    config := { Config.empty with databaseName := some "foo" }
    dbs := { noDBs with mysql := [⟨[("username", "u"), ("password", "p"),
               ("database", "foo")], []⟩] } }

/-- The result dict the action produces on `c3w_state`. -/
def c3w_res : List (String × ResVal) :=
  [("ok", ResVal.flag true),
   ("mysql", ResVal.fields [("username", "u"), ("password", "p"), ("database", "foo")])]

/-- A kafka backend is active and its published entity-type "user" differs
from the configured "group", but no resource name is configured at all. -/
def c5_state : CharmState :=
  { baseState with
    config := { Config.empty with entityType := some "group" }
    kafka := [⟨[("username", "u"), ("password", "p"), ("entity-type", "user")], []⟩] }

/-- A mysql backend is active with database "foo" (matching the configured
name) and published entity-type "user" differing from the configured
"group". -/
def c5w_state : CharmState :=
  { baseState with
    config := { Config.empty with databaseName := some "foo", entityType := some "group" }
    dbs := { noDBs with mysql := [⟨[("username", "u"), ("password", "p"),
               ("database", "foo"), ("entity-type", "user")], []⟩] } }

/-- An etcd backend fully provisioned (username, uris, endpoints, tls-ca,
version published) whose prefix was never recorded in our own databag,
with prefix "b" freshly configured. -/
def c6_state : CharmState :=
  { baseState with
    config := { Config.empty with pfxName := some "b" }
    etcd := [⟨[("username", "u"), ("uris", "x"), ("endpoints", "e"),
              ("tls-ca", "c"), ("version", "3")], []⟩] }

/-- Database name "foo" configured, no relations yet. -/
def c6w_state : CharmState :=
  { baseState with config := { Config.empty with databaseName := some "foo" } }

/-- The state `c6w_state` reaches after one run of the reconcile handler. -/
def c6w_s1 : CharmState :=
  { c6w_state with unitStatus :=
      Status.blocked "Please relate the data-integrator with the desired product" }

/-- A non-leader replica with a mysql relation recorded `BROKEN` in the
peer databag. -/
def c7_state : CharmState :=
  { baseState with isLeader := false, peerApp := [("mysql", "BROKEN")] }

/-- A leader whose peer databag records mysql as `BROKEN` (its relation is
gone) and kafka as `ACTIVE` (its relation still exists). -/
def c8_state : CharmState :=
  { baseState with
    peerApp := [("mysql", "BROKEN"), ("kafka", "ACTIVE")]
    kafka := [⟨[("username", "u"), ("password", "p"), ("topic", "bar")], []⟩] }

/-- The unacceptable wildcard topic configured, with a kafka relation
present but no credentials yet. -/
def c10_state : CharmState :=
  { baseState with
    config := { Config.empty with topicName := some "*" }
    kafka := [⟨[], []⟩] }

/-- `baseState` with peer data, secrets, status, leadership and peer
presence scrambled; the action outcome must not notice. -/
def c9_scrambled : CharmState :=
  { baseState with
    peerApp := [("mysql", "ACTIVE")]
    peerUnit := [("a", "b")]
    secrets := []
    unitStatus := Status.blocked "x"
    isLeader := false
    hasPeer := false }

/-! ### The four resource kinds of the mismatch loop (lines 208-236) -/

/-- The four resource kinds the mismatch loop of `get_status` inspects, in
its source order: Kafka topic, OpenSearch index, etcd prefix, database
name. -/
inductive ResourceKind where
  | kafkaK
  | opensearchK
  | etcdK
  | databaseK
deriving DecidableEq

/-- Whether a backend of the kind is active (has provisioned data). -/
def kind_related (s : CharmState) : ResourceKind → Bool
  | .kafkaK => is_kafka_related s
  | .opensearchK => is_opensearch_related s
  | .etcdK => is_etcd_related s
  | .databaseK => is_database_related s

/-- The previously negotiated value shown in the blocking message. -/
def kind_active_name (s : CharmState) : ResourceKind → Option String
  | .kafkaK => topic_active s
  | .opensearchK => index_active s
  | .etcdK => pfx_active s
  | .databaseK => database_active_name s

/-- The newly configured value for the kind. -/
def kind_config_name (s : CharmState) : ResourceKind → Option String
  | .kafkaK => topic_name s
  | .opensearchK => index_name s
  | .etcdK => pfx_name s
  | .databaseK => database_name s

/-- The `name_type` string used in the blocking message. -/
def kind_name_type : ResourceKind → String
  | .kafkaK => "topic"
  | .opensearchK => "index"
  | .etcdK => "prefix"
  | .databaseK => "database name"

/-- The mismatch flag of the loop entry for the kind. -/
def kind_mismatch (s : CharmState) : ResourceKind → Bool
  | .kafkaK => kafka_mismatch s
  | .opensearchK => opensearch_mismatch s
  | .etcdK => etcd_mismatch s
  | .databaseK => database_mismatch s

/-- The kinds the loop checks before the given one. -/
def kinds_before : ResourceKind → List ResourceKind
  | .kafkaK => []
  | .opensearchK => [.kafkaK]
  | .etcdK => [.kafkaK, .opensearchK]
  | .databaseK => [.kafkaK, .opensearchK, .etcdK]

/-- The relations carrying that kind's outbound data. -/
def kind_outbound (s : CharmState) : ResourceKind → List Relation
  | .kafkaK => s.kafka
  | .opensearchK => s.opensearch
  | .etcdK => s.etcd
  | .databaseK => s.dbs.mysql ++ s.dbs.mongodb ++ s.dbs.postgresql ++
      s.dbs.mongos ++ s.dbs.zookeeper ++ s.dbs.kyuubi

/-! ### Theorems -/

/-! #### Small facts about the state accessors and the write steps -/

theorem optTruthy_none_eq : optTruthy none = false := rfl

theorem get_status_set_status (s : CharmState) (st : Status) :
    get_status (set_status s st) = get_status s := rfl

theorem ocd_database_untouched (x : CharmState) :
    (_on_config_changed_database x).config = x.config ∧
    (_on_config_changed_database x).kafka = x.kafka ∧
    (_on_config_changed_database x).opensearch = x.opensearch ∧
    (_on_config_changed_database x).etcd = x.etcd ∧
    (_on_config_changed_database x).peerApp = x.peerApp ∧
    (_on_config_changed_database x).peerUnit = x.peerUnit ∧
    (_on_config_changed_database x).secrets = x.secrets ∧
    (_on_config_changed_database x).isLeader = x.isLeader ∧
    (_on_config_changed_database x).hasSecrets = x.hasSecrets ∧
    (_on_config_changed_database x).hasPeer = x.hasPeer ∧
    (_on_config_changed_database x).unitStatus = x.unitStatus :=
  ⟨rfl, rfl, rfl, rfl, rfl, rfl, rfl, rfl, rfl, rfl, rfl⟩

theorem ocd_topic_untouched (x : CharmState) :
    (_on_config_changed_topic x).config = x.config ∧
    (_on_config_changed_topic x).dbs = x.dbs ∧
    (_on_config_changed_topic x).opensearch = x.opensearch ∧
    (_on_config_changed_topic x).etcd = x.etcd ∧
    (_on_config_changed_topic x).peerApp = x.peerApp ∧
    (_on_config_changed_topic x).peerUnit = x.peerUnit ∧
    (_on_config_changed_topic x).secrets = x.secrets ∧
    (_on_config_changed_topic x).isLeader = x.isLeader ∧
    (_on_config_changed_topic x).hasSecrets = x.hasSecrets ∧
    (_on_config_changed_topic x).hasPeer = x.hasPeer ∧
    (_on_config_changed_topic x).unitStatus = x.unitStatus := by
  unfold _on_config_changed_topic
  split <;> exact ⟨rfl, rfl, rfl, rfl, rfl, rfl, rfl, rfl, rfl, rfl, rfl⟩

theorem ocd_index_untouched (x : CharmState) :
    (_on_config_changed_index x).config = x.config ∧
    (_on_config_changed_index x).dbs = x.dbs ∧
    (_on_config_changed_index x).kafka = x.kafka ∧
    (_on_config_changed_index x).etcd = x.etcd ∧
    (_on_config_changed_index x).peerApp = x.peerApp ∧
    (_on_config_changed_index x).peerUnit = x.peerUnit ∧
    (_on_config_changed_index x).secrets = x.secrets ∧
    (_on_config_changed_index x).isLeader = x.isLeader ∧
    (_on_config_changed_index x).hasSecrets = x.hasSecrets ∧
    (_on_config_changed_index x).hasPeer = x.hasPeer ∧
    (_on_config_changed_index x).unitStatus = x.unitStatus :=
  ⟨rfl, rfl, rfl, rfl, rfl, rfl, rfl, rfl, rfl, rfl, rfl⟩

theorem ocd_pfx_spec (x y : CharmState) (h : _on_config_changed_pfx x = some y) :
    y.config = x.config ∧ y.dbs = x.dbs ∧ y.kafka = x.kafka ∧
    y.opensearch = x.opensearch ∧ y.peerApp = x.peerApp ∧
    y.peerUnit = x.peerUnit ∧ y.secrets = x.secrets ∧
    y.isLeader = x.isLeader ∧ y.hasSecrets = x.hasSecrets ∧
    y.hasPeer = x.hasPeer ∧ y.unitStatus = x.unitStatus := by
  unfold _on_config_changed_pfx at h
  split at h
  · exact absurd h (by simp)
  · split at h
    · cases h
      exact ⟨rfl, rfl, rfl, rfl, rfl, rfl, rfl, rfl, rfl, rfl, rfl⟩
    · split at h
      · exact absurd h (by simp)
      · cases h
        exact ⟨rfl, rfl, rfl, rfl, rfl, rfl, rfl, rfl, rfl, rfl, rfl⟩

/-! #### Databag lemmas -/

theorem dbGet_cons (p : String × String) (t : Databag) (k : String) :
    dbGet (p :: t) k = if p.1 == k then some p.2 else dbGet t k := by
  unfold dbGet
  cases hp : (p.1 == k) <;> simp [List.find?, hp]

theorem dbGet_append (d1 d2 : Databag) (k : String) :
    dbGet (d1 ++ d2) k = ((dbGet d1 k).or (dbGet d2 k)) := by
  unfold dbGet
  rw [List.find?_append]
  cases d1.find? (fun p => p.1 == k) <;> simp

theorem dbGet_mapset_ne (d : Databag) (k k2 v : String) (h : k2 ≠ k) :
    dbGet (d.map (fun p => if p.1 == k then (k, v) else p)) k2 = dbGet d k2 := by
  have hkk : (k == k2) = false := by
    simp only [beq_eq_false_iff_ne, ne_eq]
    exact fun e => h e.symm
  induction d with
  | nil => rfl
  | cons p t ih =>
    rw [List.map_cons, dbGet_cons, dbGet_cons]
    by_cases hp : p.1 == k
    · have hpk : p.1 = k := by simpa using hp
      rw [if_pos hp]
      simp only [hkk, hpk, if_false]
      exact ih
    · rw [if_neg hp]
      by_cases hq : p.1 == k2
      · rw [if_pos hq, if_pos hq]
      · rw [if_neg hq, if_neg hq]
        exact ih

theorem dbGet_dbSet_ne (d : Databag) (k k2 v : String) (h : k2 ≠ k) :
    dbGet (dbSet d k v) k2 = dbGet d k2 := by
  have hkk : (k == k2) = false := by
    simp only [beq_eq_false_iff_ne, ne_eq]
    exact fun e => h e.symm
  unfold dbSet
  split
  · exact dbGet_mapset_ne d k k2 v h
  · rw [dbGet_append]
    have h1 : dbGet [(k, v)] k2 = none := by
      rw [dbGet_cons]
      simp [hkk, dbGet]
    rw [h1]
    cases dbGet d k2 <;> rfl

theorem dbGet_dbSet_self (d : Databag) (k v : String) :
    dbGet (dbSet d k v) k = some v := by
  unfold dbSet
  split
  · rename_i hk
    unfold dbHasKey at hk
    induction d with
    | nil => simp at hk
    | cons p t ih =>
      rw [List.map_cons, dbGet_cons]
      by_cases hp : p.1 == k
      · rw [if_pos hp]
        simp
      · rw [if_neg hp, if_neg hp]
        simp only [List.any_cons, hp, Bool.false_or] at hk
        exact ih hk
  · rw [dbGet_append]
    rename_i hk
    unfold dbHasKey at hk
    have hnone : dbGet d k = none := by
      unfold dbGet
      rw [List.find?_eq_none.mpr]
      intro p hp
      simp only [Bool.not_eq_true]
      by_contra hc
      exact hk (List.any_of_mem hp (by simpa using hc))
    rw [hnone]
    rw [dbGet_cons]
    simp [dbGet]

theorem dbGet_dbErase_ne (d : Databag) (k k2 : String) (h : k2 ≠ k) :
    dbGet (dbErase d k) k2 = dbGet d k2 := by
  unfold dbErase
  induction d with
  | nil => rfl
  | cons p t ih =>
    rw [dbGet_cons, List.filter_cons]
    by_cases hp : p.1 == k
    · have hpk : p.1 = k := by simpa using hp
      have hq : (p.1 == k2) = false := by
        simp only [beq_eq_false_iff_ne, ne_eq, hpk]
        exact fun e => h e.symm
      have hb : (p.1 != k) = false := by simp [bne, hp]
      rw [if_neg (by simp [hb]), if_neg (by simp [hq])]
      exact ih
    · have hb : (p.1 != k) = true := by simpa [bne] using hp
      rw [if_pos hb, dbGet_cons]
      by_cases hq : p.1 == k2
      · rw [if_pos hq, if_pos hq]
      · rw [if_neg hq, if_neg hq]
        exact ih

theorem dbGet_dbUpdate_notmem (d : Databag) (kvs : List (String × String))
    (k2 : String) (h : ∀ p ∈ kvs, k2 ≠ p.1) :
    dbGet (dbUpdate d kvs) k2 = dbGet d k2 := by
  induction kvs generalizing d with
  | nil => rfl
  | cons p t ih =>
    unfold dbUpdate at *
    simp only [List.foldl_cons]
    rw [ih (dbSet d p.1 p.2) (fun q hq => h q (by simp [hq]))]
    exact dbGet_dbSet_ne d p.1 k2 p.2 (h p (by simp))

/-! #### Congruence lemmas: which parts of the state each reader depends on -/

theorem topic_active_congr (x z : CharmState) (h : x.kafka = z.kafka) :
    topic_active x = topic_active z := by
  unfold topic_active kafka_relation
  rw [h]

theorem index_active_congr (x z : CharmState) (h : x.opensearch = z.opensearch) :
    index_active x = index_active z := by
  unfold index_active opensearch_relation
  rw [h]

theorem pfx_active_congr (x z : CharmState) (he : x.etcd = z.etcd)
    (hs : x.hasSecrets = z.hasSecrets) : pfx_active x = pfx_active z := by
  unfold pfx_active etcd_relation
  rw [he, hs]

theorem is_kafka_related_congr (x z : CharmState) (h : x.kafka = z.kafka) :
    is_kafka_related x = is_kafka_related z := by
  unfold is_kafka_related
  rw [h]

theorem is_opensearch_related_congr (x z : CharmState) (h : x.opensearch = z.opensearch) :
    is_opensearch_related x = is_opensearch_related z := by
  unfold is_opensearch_related
  rw [h]

theorem is_etcd_related_congr (x z : CharmState) (he : x.etcd = z.etcd)
    (hs : x.hasSecrets = z.hasSecrets) : is_etcd_related x = is_etcd_related z := by
  unfold is_etcd_related etcd_relation
  rw [he, hs]

theorem database_requirers_congr (x z : CharmState) (h : x.dbs = z.dbs) :
    database_requirers x = database_requirers z := by
  unfold database_requirers
  rw [h]

theorem databases_active_congr (x z : CharmState) (h : x.dbs = z.dbs) :
    databases_active x = databases_active z := by
  unfold databases_active
  rw [database_requirers_congr x z h]

theorem is_database_related_congr (x z : CharmState) (h : x.dbs = z.dbs) :
    is_database_related x = is_database_related z := by
  unfold is_database_related
  rw [database_requirers_congr x z h]

theorem get_active_value_congr (x z : CharmState) (hd : x.dbs = z.dbs)
    (hk : x.kafka = z.kafka) (ho : x.opensearch = z.opensearch)
    (he : x.etcd = z.etcd) (hs : x.hasSecrets = z.hasSecrets) (key : String) :
    _get_active_value x key = _get_active_value z key := by
  unfold _get_active_value kafka_relation opensearch_relation etcd_relation
  rw [database_requirers_congr x z hd, hk, ho, he, hs]

theorem changes_role_info_congr (x z : CharmState) (hc : x.config = z.config)
    (hd : x.dbs = z.dbs) (hk : x.kafka = z.kafka) (ho : x.opensearch = z.opensearch)
    (he : x.etcd = z.etcd) (hs : x.hasSecrets = z.hasSecrets) :
    _changes_role_info x = _changes_role_info z := by
  unfold _changes_role_info entity_type_active extra_user_roles_active
    extra_group_roles_active entity_type extra_user_roles extra_group_roles
  rw [get_active_value_congr x z hd hk ho he hs "entity-type",
    get_active_value_congr x z hd hk ho he hs "extra-user-roles",
    get_active_value_congr x z hd hk ho he hs "extra-group-roles", hc]

theorem get_status_congr (x z : CharmState)
    (hc : x.config = z.config) (hsx : x.hasSecrets = z.hasSecrets)
    (hsecs : x.secrets = z.secrets)
    (hdr : is_database_related x = is_database_related z)
    (hkr : is_kafka_related x = is_kafka_related z)
    (hor : is_opensearch_related x = is_opensearch_related z)
    (her : is_etcd_related x = is_etcd_related z)
    (hrole : _changes_role_info x = _changes_role_info z)
    (hta : topic_active x = topic_active z)
    (hia : index_active x = index_active z)
    (hpa : pfx_active x = pfx_active z)
    (hda : databases_active x = databases_active z) :
    get_status x = get_status z := by
  unfold get_status kafka_mismatch opensearch_mismatch etcd_mismatch
    database_mismatch database_active_name requested_entities_secret_content
    topic_name database_name index_name pfx_name
  rw [hc, hsx, hsecs, hdr, hkr, hor, her, hrole, hta, hia, hpa, hda]

/-! #### Preservation lemmas for the write steps -/

theorem step_database_untouched (x : CharmState) :
    (step_database x).config = x.config ∧
    (step_database x).kafka = x.kafka ∧
    (step_database x).opensearch = x.opensearch ∧
    (step_database x).etcd = x.etcd ∧
    (step_database x).peerApp = x.peerApp ∧
    (step_database x).peerUnit = x.peerUnit ∧
    (step_database x).secrets = x.secrets ∧
    (step_database x).isLeader = x.isLeader ∧
    (step_database x).hasSecrets = x.hasSecrets ∧
    (step_database x).hasPeer = x.hasPeer ∧
    (step_database x).unitStatus = x.unitStatus := by
  unfold step_database
  split
  · exact ocd_database_untouched x
  · exact ⟨rfl, rfl, rfl, rfl, rfl, rfl, rfl, rfl, rfl, rfl, rfl⟩

theorem step_topic_untouched (x : CharmState) :
    (step_topic x).config = x.config ∧
    (step_topic x).dbs = x.dbs ∧
    (step_topic x).opensearch = x.opensearch ∧
    (step_topic x).etcd = x.etcd ∧
    (step_topic x).peerApp = x.peerApp ∧
    (step_topic x).peerUnit = x.peerUnit ∧
    (step_topic x).secrets = x.secrets ∧
    (step_topic x).isLeader = x.isLeader ∧
    (step_topic x).hasSecrets = x.hasSecrets ∧
    (step_topic x).hasPeer = x.hasPeer ∧
    (step_topic x).unitStatus = x.unitStatus := by
  unfold step_topic
  split
  · exact ocd_topic_untouched x
  · exact ⟨rfl, rfl, rfl, rfl, rfl, rfl, rfl, rfl, rfl, rfl, rfl⟩

theorem step_index_untouched (x : CharmState) :
    (step_index x).config = x.config ∧
    (step_index x).dbs = x.dbs ∧
    (step_index x).kafka = x.kafka ∧
    (step_index x).etcd = x.etcd ∧
    (step_index x).peerApp = x.peerApp ∧
    (step_index x).peerUnit = x.peerUnit ∧
    (step_index x).secrets = x.secrets ∧
    (step_index x).isLeader = x.isLeader ∧
    (step_index x).hasSecrets = x.hasSecrets ∧
    (step_index x).hasPeer = x.hasPeer ∧
    (step_index x).unitStatus = x.unitStatus := by
  unfold step_index
  split
  · exact ocd_index_untouched x
  · exact ⟨rfl, rfl, rfl, rfl, rfl, rfl, rfl, rfl, rfl, rfl, rfl⟩

theorem step_pfx_untouched (x y : CharmState) (h : step_pfx x = some y) :
    y.config = x.config ∧ y.dbs = x.dbs ∧ y.kafka = x.kafka ∧
    y.opensearch = x.opensearch ∧ y.peerApp = x.peerApp ∧
    y.peerUnit = x.peerUnit ∧ y.secrets = x.secrets ∧
    y.isLeader = x.isLeader ∧ y.hasSecrets = x.hasSecrets ∧
    y.hasPeer = x.hasPeer ∧ y.unitStatus = x.unitStatus := by
  unfold step_pfx at h
  split at h
  · split at h
    · exact ocd_pfx_spec x y h
    · split at h
      · exact absurd h (by simp)
      · split at h
        · exact ocd_pfx_spec x y h
        · cases h
          exact ⟨rfl, rfl, rfl, rfl, rfl, rfl, rfl, rfl, rfl, rfl, rfl⟩
  · cases h
    exact ⟨rfl, rfl, rfl, rfl, rfl, rfl, rfl, rfl, rfl, rfl, rfl⟩

theorem mtls_of_config_none (x : CharmState) (h : x.config.mtlsCert = none) :
    mtls_client_cert x = some none := by
  simp [mtls_client_cert, h]

theorem step_database_id_of (x : CharmState)
    (h : optTruthy (database_name x) = false ∨
      (databases_active x).isEmpty = false) : step_database x = x := by
  unfold step_database
  rcases h with ha | hb
  · rw [if_neg (by simp [ha])]
  · rw [if_neg (by simp [hb])]

theorem step_topic_kafka_of (x : CharmState)
    (h : optTruthy (topic_name x) = false ∨ optTruthy (topic_active x) = true ∨
      is_topic_value_acceptable ((topic_name x).getD "") = false) :
    (step_topic x).kafka = x.kafka := by
  unfold step_topic
  rcases h with hn | ha | hb
  · rw [if_neg (by simp [hn])]
  · rw [if_neg (by simp [ha])]
  · split
    · unfold _on_config_changed_topic
      rw [if_pos (by simp [hb])]
    · rfl

theorem step_index_id_of (x : CharmState)
    (h : optTruthy (index_name x) = false ∨ optTruthy (index_active x) = true) :
    step_index x = x := by
  unfold step_index
  rcases h with hn | ha
  · rw [if_neg (by simp [hn])]
  · rw [if_neg (by simp [ha])]

theorem step_pfx_id_of (x : CharmState)
    (h : optTruthy (pfx_name x) = false ∨
      (optTruthy (pfx_active x) = true ∧ mtls_client_cert x = some none)) :
    step_pfx x = some x := by
  unfold step_pfx
  rcases h with ha | ⟨hb, hm⟩
  · rw [if_neg (by simp [ha])]
  · split
    · rw [if_neg (by simp [hb]), hm]
      simp [optTruthy]
    · rfl

/-! #### Preservation through the whole write pipeline -/

theorem reconcile_writes_frame (x y : CharmState) (h : reconcile_writes x = some y) :
    y.config = x.config ∧ y.peerApp = x.peerApp ∧ y.peerUnit = x.peerUnit ∧
    y.secrets = x.secrets ∧ y.isLeader = x.isLeader ∧
    y.hasSecrets = x.hasSecrets ∧ y.hasPeer = x.hasPeer ∧
    y.unitStatus = x.unitStatus := by
  unfold reconcile_writes at h
  obtain ⟨c1, k1, o1, e1, a1, u1, s1, l1, h1, p1, t1⟩ := step_database_untouched x
  obtain ⟨c2, d2, o2, e2, a2, u2, s2, l2, h2, p2, t2⟩ :=
    step_topic_untouched (step_database x)
  obtain ⟨c3, d3, k3, e3, a3, u3, s3, l3, h3, p3, t3⟩ :=
    step_index_untouched (step_topic (step_database x))
  obtain ⟨c4, d4, k4, o4, a4, u4, s4, l4, h4, p4, t4⟩ := step_pfx_untouched _ _ h
  refine ⟨?_, ?_, ?_, ?_, ?_, ?_, ?_, ?_⟩ <;>
    simp [c4, a4, u4, s4, l4, h4, p4, t4, c3, a3, u3, s3, l3, h3, p3, t3,
      c2, a2, u2, s2, l2, h2, p2, t2, c1, a1, u1, s1, l1, h1, p1, t1]

theorem reconcile_writes_kafka_preserved (x y : CharmState)
    (h : reconcile_writes x = some y)
    (hk : optTruthy (topic_name x) = false ∨ optTruthy (topic_active x) = true ∨
      is_topic_value_acceptable ((topic_name x).getD "") = false) :
    y.kafka = x.kafka := by
  unfold reconcile_writes at h
  obtain ⟨c1, k1, o1, e1, -, -, -, -, -, -, -⟩ := step_database_untouched x
  have hc1 : topic_name (step_database x) = topic_name x := by
    unfold topic_name; rw [c1]
  have hk1 : (step_topic (step_database x)).kafka = (step_database x).kafka := by
    apply step_topic_kafka_of
    rcases hk with hn | ha | hb
    · exact Or.inl (by rw [hc1]; exact hn)
    · exact Or.inr (Or.inl
        (by rw [topic_active_congr (step_database x) x k1]; exact ha))
    · exact Or.inr (Or.inr (by rw [hc1]; exact hb))
  obtain ⟨-, -, k3, -, -, -, -, -, -, -, -⟩ :=
    step_index_untouched (step_topic (step_database x))
  obtain ⟨-, -, k4, -, -, -, -, -, -, -, -⟩ := step_pfx_untouched _ _ h
  rw [k4, k3, hk1, k1]

theorem reconcile_writes_dbs_preserved (x y : CharmState)
    (h : reconcile_writes x = some y)
    (hda : optTruthy (database_name x) = false ∨
      (databases_active x).isEmpty = false) :
    y.dbs = x.dbs := by
  unfold reconcile_writes at h
  rw [step_database_id_of x hda] at h
  obtain ⟨-, d2, -, -, -, -, -, -, -, -, -⟩ := step_topic_untouched x
  obtain ⟨-, d3, -, -, -, -, -, -, -, -, -⟩ := step_index_untouched (step_topic x)
  obtain ⟨-, d4, -, -, -, -, -, -, -, -, -⟩ := step_pfx_untouched _ _ h
  rw [d4, d3, d2]

theorem reconcile_writes_opensearch_preserved (x y : CharmState)
    (h : reconcile_writes x = some y)
    (hia : optTruthy (index_name x) = false ∨ optTruthy (index_active x) = true) :
    y.opensearch = x.opensearch := by
  unfold reconcile_writes at h
  obtain ⟨c1, -, o1, -, -, -, -, -, -, -, -⟩ := step_database_untouched x
  obtain ⟨c2, -, o2, -, -, -, -, -, -, -, -⟩ := step_topic_untouched (step_database x)
  have hi3 : step_index (step_topic (step_database x)) = step_topic (step_database x) := by
    apply step_index_id_of
    rcases hia with hn | ha
    · refine Or.inl ?_
      unfold index_name
      rw [c2, c1]
      exact hn
    · refine Or.inr ?_
      rw [index_active_congr (step_topic (step_database x)) x (by rw [o2, o1])]
      exact ha
  rw [hi3] at h
  obtain ⟨-, -, -, o4, -, -, -, -, -, -, -⟩ := step_pfx_untouched _ _ h
  rw [o4, o2, o1]

theorem reconcile_writes_etcd_preserved (x y : CharmState)
    (h : reconcile_writes x = some y)
    (he : optTruthy (pfx_name x) = false ∨
      (optTruthy (pfx_active x) = true ∧ x.config.mtlsCert = none)) :
    y.etcd = x.etcd := by
  unfold reconcile_writes at h
  obtain ⟨c1, -, -, e1, -, -, -, -, h1, -, -⟩ := step_database_untouched x
  obtain ⟨c2, -, -, e2, -, -, -, -, h2, -, -⟩ := step_topic_untouched (step_database x)
  obtain ⟨c3, -, -, e3, -, -, -, -, h3, -, -⟩ :=
    step_index_untouched (step_topic (step_database x))
  have hc : (step_index (step_topic (step_database x))).config = x.config := by
    rw [c3, c2, c1]
  have hp4 : step_pfx (step_index (step_topic (step_database x))) =
      some (step_index (step_topic (step_database x))) := by
    apply step_pfx_id_of
    rcases he with ha | ⟨hb, hm⟩
    · refine Or.inl ?_
      unfold pfx_name
      rw [hc]
      exact ha
    · refine Or.inr ⟨?_, ?_⟩
      · rw [pfx_active_congr (step_index (step_topic (step_database x))) x
          (by rw [e3, e2, e1]) (by rw [h3, h2, h1])]
        exact hb
      · apply mtls_of_config_none
        rw [hc]
        exact hm
  rw [hp4] at h
  cases h
  rw [e3, e2, e1]

theorem reconcile_writes_no_names (x : CharmState)
    (hdb : optTruthy (database_name x) = false)
    (ht : optTruthy (topic_name x) = false)
    (hi : optTruthy (index_name x) = false)
    (hp : optTruthy (pfx_name x) = false) :
    reconcile_writes x = some x := by
  have h1 : step_database x = x := by
    unfold step_database
    rw [if_neg (by simp [hdb])]
  have h2 : step_topic x = x := by
    unfold step_topic
    rw [if_neg (by simp [ht])]
  have h3 : step_index x = x := by
    unfold step_index
    rw [if_neg (by simp [hi])]
  unfold reconcile_writes
  rw [h1, h2, h3]
  exact step_pfx_id_of x (Or.inl hp)

theorem get_status_eval (s : CharmState)
    (hsec : optTruthy s.config.requestedEntitiesSecret = false)
    (hname : (optTruthy (topic_name s) || optTruthy (database_name s) ||
      optTruthy (index_name s) || optTruthy (pfx_name s)) = true)
    (htop : optTruthy (topic_name s) = true →
      is_topic_value_acceptable ((topic_name s).getD "") = true)
    (hrel : any_backend_related s = true)
    (hrole : _changes_role_info s = false) :
    get_status s =
      (if kafka_mismatch s then
        Status.blocked (change_message "topic" (topic_active s))
       else if opensearch_mismatch s then
        Status.blocked (change_message "index" (index_active s))
       else if etcd_mismatch s then
        Status.blocked (change_message "prefix" (pfx_active s))
       else if database_mismatch s then
        Status.blocked (change_message "database name" (database_active_name s))
       else Status.active) := by
  have h4 : (optTruthy (topic_name s) &&
      !is_topic_value_acceptable ((topic_name s).getD "")) = false := by
    cases htn : optTruthy (topic_name s)
    · simp
    · simp [htop htn]
  unfold any_backend_related at hrel
  unfold get_status
  rw [if_neg (by simp [hsec]), if_neg (by simp [hsec]), if_neg (by simp [hname]),
    if_neg (by simp [h4]), if_neg (by simp [hrel]), if_neg (by simp [hrole])]

/-! #### Claim C4 -/

/-- Claim C4 (counterexample): with every resource kind empty the code
returns the blocking "Please specify..." status, not a soft waiting
status, and it returns the very same status whether nothing was ever
connected (`baseState`) or a relation existed and was removed after the
configuration was cleared (`c4_cleared_state`): the waiting/blocked
distinction claimed by the spec does not exist. -/
theorem c4_counterexample :
    get_status baseState =
      Status.blocked "Please specify either topic, index, database name, or prefix"
    ∧ (get_status baseState).isWaiting = false
    ∧ get_status c4_cleared_state = get_status baseState := by
  refine ⟨by decide, by decide, by decide⟩

/-- Claim C4 (amended): for every configuration in which all resource
kinds are empty (and no requested-entities-secret is configured),
reconciliation returns the single blocking status "Please specify either
topic, index, database name, or prefix" — the same status regardless of
whether anything was ever connected — and propagates nothing: the
reconcile handler changes only the unit status. -/
theorem c4_amended_empty_config_blocked (s : CharmState)
    (hsec : optTruthy s.config.requestedEntitiesSecret = false)
    (hdb : optTruthy (database_name s) = false)
    (ht : optTruthy (topic_name s) = false)
    (hi : optTruthy (index_name s) = false)
    (hp : optTruthy (pfx_name s) = false) :
    get_status s =
      Status.blocked "Please specify either topic, index, database name, or prefix"
    ∧ _on_config_changed s = some (set_status s (get_status s)) := by
  constructor
  · unfold get_status
    rw [if_neg (by simp [hsec]), if_neg (by simp [hsec]),
      if_pos (by simp [hdb, ht, hi, hp])]
  · unfold _on_config_changed
    by_cases hl : (set_status s (get_status s)).isLeader = true
    · rw [if_neg (by simp [hl])]
      exact reconcile_writes_no_names _ hdb ht hi hp
    · have hl2 : (set_status s (get_status s)).isLeader = false := by
        cases hb : (set_status s (get_status s)).isLeader
        · rfl
        · exact absurd hb hl
      rw [if_pos (by simp [hl2])]

/-- Witness for claim C4's amended theorem at the fresh empty state. -/
theorem c4_amended_witness :
    get_status baseState =
      Status.blocked "Please specify either topic, index, database name, or prefix"
    ∧ _on_config_changed baseState = some (set_status baseState (get_status baseState)) :=
  c4_amended_empty_config_blocked baseState (by decide) (by decide) (by decide)
    (by decide) (by decide)

/-! #### Claim C7 -/

/-- Claim C7: a non-leader replica never writes the peer-relation data
bag: recording a relation status, handling a relation-broken event and
reacting to peer-relation changes are all no-ops on a non-leader, and the
reconcile handler on a non-leader only refreshes the unit status, leaving
all relation and peer data untouched. -/
theorem c7_non_leader_no_peer_writes (s : CharmState) (relName status : String)
    (h : s.isLeader = false) :
    _update_relation_status s relName status = some s
    ∧ _on_relation_broken s relName = some s
    ∧ _on_peer_relation_changed s = some s
    ∧ _on_config_changed s = some (set_status s (get_status s)) := by
  refine ⟨?_, ?_, ?_, ?_⟩
  · unfold _update_relation_status
    rw [if_pos (by simp [h])]
  · unfold _on_relation_broken _update_relation_status
    rw [if_pos (by simp [h])]
  · unfold _on_peer_relation_changed
    rw [if_pos (by simp [h])]
  · unfold _on_config_changed
    rw [if_pos (by simp [set_status, h])]

/-- Witness for claim C7 at a concrete non-leader state. -/
theorem c7_witness :
    _update_relation_status c7_state "mysql" "ACTIVE" = some c7_state
    ∧ _on_relation_broken c7_state "mysql" = some c7_state
    ∧ _on_peer_relation_changed c7_state = some c7_state
    ∧ _on_config_changed c7_state = some (set_status c7_state (get_status c7_state)) :=
  c7_non_leader_no_peer_writes c7_state "mysql" "ACTIVE" (by decide)

/-! #### Claim C9 -/

/-- Claim C9: the get-credentials action is read-only.  Every invocation
leaves the state exactly as it found it, and the outcome is recomputed
from the configuration and relation state alone: it does not depend on
the peer databags, the stored secrets, the unit status, leadership, or
the existence of the peer relation, so nothing about the credential
bundle is persisted anywhere. -/
theorem c9_get_credentials_read_only (s : CharmState) (pa pu : Databag)
    (sec : List (String × List (String × String))) (st : Status) (ldr hp : Bool) :
    (∀ r s2, _on_get_credentials_action_run s = some (r, s2) → s2 = s)
    ∧ _on_get_credentials_action
        { s with peerApp := pa, peerUnit := pu, secrets := sec,
                 unitStatus := st, isLeader := ldr, hasPeer := hp }
      = _on_get_credentials_action s := by
  constructor
  · intro r s2 hr
    unfold _on_get_credentials_action_run at hr
    cases hh : _on_get_credentials_action s with
    | none => rw [hh] at hr; simp at hr
    | some a =>
      rw [hh] at hr
      simp only [Option.map_some', Option.some.injEq, Prod.mk.injEq] at hr
      exact hr.2.symm
  · rfl

/-- Witness for claim C9 at a concrete state with scrambled peer data. -/
theorem c9_witness :
    _on_get_credentials_action c9_scrambled = _on_get_credentials_action baseState :=
  (c9_get_credentials_read_only baseState [("mysql", "ACTIVE")] [("a", "b")] []
    (Status.blocked "x") false false).2

/-! #### Claim C10 -/

/-- Claim C10: a non-empty but unacceptable topic value (the wildcard)
blocks with "Please pass an acceptable topic value", ahead of the
relate-me and conflict checks; the Kafka requirer is initialised with an
empty topic and the reconcile handler never writes the unacceptable value
into any kafka relation databag. -/
theorem c10_unacceptable_topic_blocked (s : CharmState) (t : String)
    (hsec : optTruthy s.config.requestedEntitiesSecret = false)
    (ht : topic_name s = some t) (hne : t ≠ "")
    (hbad : is_topic_value_acceptable t = false) :
    get_status s = Status.blocked "Please pass an acceptable topic value"
    ∧ kafka_init_topic s.config = ""
    ∧ (∀ s2, _on_config_changed s = some s2 → s2.kafka = s.kafka) := by
  have htt : optTruthy (topic_name s) = true := by
    rw [ht]; simp [optTruthy, hne]
  refine ⟨?_, ?_, ?_⟩
  · unfold get_status
    rw [if_neg (by simp [hsec]), if_neg (by simp [hsec]),
      if_neg (by simp [htt]), if_pos (by simp [ht, optTruthy, hne, hbad])]
  · unfold kafka_init_topic
    have hc : s.config.topicName = some t := ht
    rw [hc]
    simp [hbad]
  · intro s2 h2
    unfold _on_config_changed at h2
    by_cases hl : (set_status s (get_status s)).isLeader = true
    · rw [if_neg (by simp [hl])] at h2
      have hk := reconcile_writes_kafka_preserved _ _ h2
        (Or.inr (Or.inr
          (by rw [show topic_name (set_status s (get_status s)) = some t from ht]
              simpa using hbad)))
      exact hk
    · rw [if_pos (by simp at hl; simp [hl])] at h2
      cases h2
      rfl

/-- Witness for claim C10 at the wildcard-topic state. -/
theorem c10_witness :
    get_status c10_state = Status.blocked "Please pass an acceptable topic value"
    ∧ kafka_init_topic c10_state.config = "" :=
  ⟨(c10_unacceptable_topic_blocked c10_state "*" (by decide) (by decide)
      (by decide) (by decide)).1,
   (c10_unacceptable_topic_blocked c10_state "*" (by decide) (by decide)
      (by decide) (by decide)).2.1⟩

/-! #### Counterexamples for claims C1, C3, C5, C6 -/

/-- Claim C1 (counterexample): in `c1_state` a kafka backend is active,
its negotiated topic "foo" differs from the configured "bar", yet
`get_status` does not return the claimed "To change topic: ..." message —
the role-info check fires first because the entity type also changed. -/
theorem c1_counterexample :
    is_kafka_related c1_state = true
    ∧ topic_active c1_state = some "foo"
    ∧ topic_name c1_state = some "bar"
    ∧ get_status c1_state =
        Status.blocked "To change role info, please remove relation and add it again"
    ∧ get_status c1_state ≠
        Status.blocked "To change topic: foo, please remove relation and add it again" := by
  refine ⟨by decide, by decide, by decide, by decide, by decide⟩

/-- Claim C3 (counterexample): in `c3_state` the mysql backend has
provisioned credentials (so it is active and the action succeeds), but
because it published no "database" field the result contains no "mysql"
sub-object at all — the claimed one-sub-object-per-active-backend shape
fails. -/
theorem c3_counterexample :
    is_database_related c3_state = true
    ∧ _on_get_credentials_action c3_state =
        some (ActionOutcome.results [("ok", ResVal.flag true)]) := by
  refine ⟨by decide, by decide⟩

/-- Claim C5 (counterexample): in `c5_state` a kafka backend is active
and the configured entity type "group" differs from the active "user",
yet `get_status` does not return the role-info message: with no resource
name configured the "Please specify..." check fires first. -/
theorem c5_counterexample :
    is_kafka_related c5_state = true
    ∧ entity_type_active c5_state = some "user"
    ∧ entity_type c5_state = some "group"
    ∧ get_status c5_state ≠
        Status.blocked "To change role info, please remove relation and add it again"
    ∧ get_status c5_state =
        Status.blocked "Please specify either topic, index, database name, or prefix" := by
  refine ⟨by decide, by decide, by decide, by decide, by decide⟩

/-- Claim C6 (counterexample): running the reconcile handler twice on
`c6_state` with unchanged inputs yields two different statuses: the first
run blocks on the prefix mismatch (the etcd prefix had not been recorded
in our databag yet) and, as a side effect, records it, so the second run
reports active. -/
theorem c6_counterexample :
    (_on_config_changed c6_state).map CharmState.unitStatus =
      some (Status.blocked "To change prefix: None, please remove relation and add it again")
    ∧ ((_on_config_changed c6_state).bind _on_config_changed).map CharmState.unitStatus =
      some Status.active := by
  refine ⟨by decide, by decide⟩

/-! #### Claims C1 and C5 (amended theorems) -/

/-- Claim C1 (amended): for every state in which a backend of kind `k` is
active with a non-empty negotiated value `v` differing from the (truthy)
newly configured value, `get_status` returns the blocking status
"To change (name type): v, please remove relation and add it again" and
`_on_config_changed` leaves that backend's relation data unmodified —
provided no earlier check fires (no requested-entities-secret is
configured, any configured topic is acceptable, the role strings are
unchanged, and `k` is the first mismatching kind in the loop order kafka,
opensearch, etcd, database), and, for the etcd kind, provided no mTLS
certificate is configured (with one, `_on_config_changed` still writes
the new prefix to the etcd relation). -/
theorem c1_amended_blocked_on_conflict (s : CharmState) (k : ResourceKind) (v : String)
    (hsec : optTruthy s.config.requestedEntitiesSecret = false)
    (htopic : optTruthy (topic_name s) = true →
      is_topic_value_acceptable ((topic_name s).getD "") = true)
    (hrole : _changes_role_info s = false)
    (hrel : kind_related s k = true)
    (hact : kind_active_name s k = some v) (hv : v ≠ "")
    (hcfg : optTruthy (kind_config_name s k) = true)
    (hdiff : kind_config_name s k ≠ some v)
    (hfirst : ∀ k2 ∈ kinds_before k, kind_mismatch s k2 = false)
    (hmtls : k = ResourceKind.etcdK → s.config.mtlsCert = none) :
    get_status s = Status.blocked (change_message (kind_name_type k) (some v))
    ∧ (∀ s2, _on_config_changed s = some s2 →
        kind_outbound s2 k = kind_outbound s k) := by
  cases k with
  | kafkaK =>
    simp only [kind_related] at hrel
    simp only [kind_active_name] at hact
    simp only [kind_config_name] at hcfg hdiff
    have hanyrel : any_backend_related s = true := by
      unfold any_backend_related
      simp [hrel]
    have hname : (optTruthy (topic_name s) || optTruthy (database_name s) ||
        optTruthy (index_name s) || optTruthy (pfx_name s)) = true := by
      simp [hcfg]
    have hkm : kafka_mismatch s = true := by
      unfold kafka_mismatch
      rw [hrel, hact]
      simp only [Bool.true_and, bne_iff_ne, ne_eq]
      exact fun h => hdiff h.symm
    constructor
    · rw [get_status_eval s hsec hname htopic hanyrel hrole,
        if_pos (by simp [hkm]), hact]
      rfl
    · intro s2 h2
      unfold _on_config_changed at h2
      by_cases hl : (set_status s (get_status s)).isLeader = true
      · rw [if_neg (by simp [hl])] at h2
        exact reconcile_writes_kafka_preserved (set_status s (get_status s)) s2 h2
          (Or.inr (Or.inl (by
            have hact2 : topic_active (set_status s (get_status s)) = some v := hact
            rw [hact2]
            simp [optTruthy, hv])))
      · have hl2 : (set_status s (get_status s)).isLeader = false := by
          cases hb : (set_status s (get_status s)).isLeader
          · rfl
          · exact absurd hb hl
        rw [if_pos (by simp [hl2])] at h2
        cases h2
        rfl
  | opensearchK =>
    simp only [kind_related] at hrel
    simp only [kind_active_name] at hact
    simp only [kind_config_name] at hcfg hdiff
    have hkf : kafka_mismatch s = false := by
      have := hfirst ResourceKind.kafkaK (by simp [kinds_before])
      simpa [kind_mismatch] using this
    have hanyrel : any_backend_related s = true := by
      unfold any_backend_related
      simp [hrel]
    have hname : (optTruthy (topic_name s) || optTruthy (database_name s) ||
        optTruthy (index_name s) || optTruthy (pfx_name s)) = true := by
      simp [hcfg]
    have hom : opensearch_mismatch s = true := by
      unfold opensearch_mismatch
      rw [hrel, hact]
      simp only [Bool.true_and, bne_iff_ne, ne_eq]
      exact fun h => hdiff h.symm
    constructor
    · rw [get_status_eval s hsec hname htopic hanyrel hrole,
        if_neg (by simp [hkf]), if_pos (by simp [hom]), hact]
      rfl
    · intro s2 h2
      unfold _on_config_changed at h2
      by_cases hl : (set_status s (get_status s)).isLeader = true
      · rw [if_neg (by simp [hl])] at h2
        exact reconcile_writes_opensearch_preserved (set_status s (get_status s)) s2 h2
          (Or.inr (by
            have hact2 : index_active (set_status s (get_status s)) = some v := hact
            rw [hact2]
            simp [optTruthy, hv]))
      · have hl2 : (set_status s (get_status s)).isLeader = false := by
          cases hb : (set_status s (get_status s)).isLeader
          · rfl
          · exact absurd hb hl
        rw [if_pos (by simp [hl2])] at h2
        cases h2
        rfl
  | etcdK =>
    simp only [kind_related] at hrel
    simp only [kind_active_name] at hact
    simp only [kind_config_name] at hcfg hdiff
    have hkf : kafka_mismatch s = false := by
      have := hfirst ResourceKind.kafkaK (by simp [kinds_before])
      simpa [kind_mismatch] using this
    have hof : opensearch_mismatch s = false := by
      have := hfirst ResourceKind.opensearchK (by simp [kinds_before])
      simpa [kind_mismatch] using this
    have hanyrel : any_backend_related s = true := by
      unfold any_backend_related
      simp [hrel]
    have hname : (optTruthy (topic_name s) || optTruthy (database_name s) ||
        optTruthy (index_name s) || optTruthy (pfx_name s)) = true := by
      simp [hcfg]
    have hem : etcd_mismatch s = true := by
      unfold etcd_mismatch
      rw [hrel, hact]
      simp only [Bool.true_and, bne_iff_ne, ne_eq]
      exact fun h => hdiff h.symm
    constructor
    · rw [get_status_eval s hsec hname htopic hanyrel hrole,
        if_neg (by simp [hkf]), if_neg (by simp [hof]), if_pos (by simp [hem]), hact]
      rfl
    · intro s2 h2
      unfold _on_config_changed at h2
      by_cases hl : (set_status s (get_status s)).isLeader = true
      · rw [if_neg (by simp [hl])] at h2
        exact reconcile_writes_etcd_preserved (set_status s (get_status s)) s2 h2
          (Or.inr
            ⟨by have hact2 : pfx_active (set_status s (get_status s)) = some v := hact
                rw [hact2]
                simp [optTruthy, hv],
             hmtls rfl⟩)
      · have hl2 : (set_status s (get_status s)).isLeader = false := by
          cases hb : (set_status s (get_status s)).isLeader
          · rfl
          · exact absurd hb hl
        rw [if_pos (by simp [hl2])] at h2
        cases h2
        rfl
  | databaseK =>
    simp only [kind_related] at hrel
    simp only [kind_active_name] at hact
    simp only [kind_config_name] at hcfg hdiff
    have hkf : kafka_mismatch s = false := by
      have := hfirst ResourceKind.kafkaK (by simp [kinds_before])
      simpa [kind_mismatch] using this
    have hof : opensearch_mismatch s = false := by
      have := hfirst ResourceKind.opensearchK (by simp [kinds_before])
      simpa [kind_mismatch] using this
    have hef : etcd_mismatch s = false := by
      have := hfirst ResourceKind.etcdK (by simp [kinds_before])
      simpa [kind_mismatch] using this
    have hanyrel : any_backend_related s = true := by
      unfold any_backend_related
      simp [hrel]
    have hname : (optTruthy (topic_name s) || optTruthy (database_name s) ||
        optTruthy (index_name s) || optTruthy (pfx_name s)) = true := by
      simp [hcfg]
    have hdm : database_mismatch s = true := by
      unfold database_mismatch
      rw [hrel]
      simp only [Bool.true_and]
      have hact2 := hact
      unfold database_active_name at hact2
      cases hda : databases_active s with
      | nil => rw [hda] at hact2; simp at hact2
      | cons p0 rest =>
        rw [hda] at hact2
        simp only [List.head?, Option.map_some'] at hact2
        have hp0 : p0.2 = v := by simpa using hact2
        simp only [List.any_cons]
        have hf : ((some p0.2 : Option String) != database_name s) = true := by
          simp only [bne_iff_ne, ne_eq, hp0]
          exact fun h => hdiff h.symm
        rw [hf]
        simp
    have hne2 : (databases_active s).isEmpty = false := by
      have hact2 := hact
      unfold database_active_name at hact2
      cases hda : databases_active s with
      | nil => rw [hda] at hact2; simp at hact2
      | cons p0 rest => rfl
    constructor
    · rw [get_status_eval s hsec hname htopic hanyrel hrole,
        if_neg (by simp [hkf]), if_neg (by simp [hof]), if_neg (by simp [hef]),
        if_pos (by simp [hdm]), hact]
      rfl
    · intro s2 h2
      unfold _on_config_changed at h2
      by_cases hl : (set_status s (get_status s)).isLeader = true
      · rw [if_neg (by simp [hl])] at h2
        have hd := reconcile_writes_dbs_preserved (set_status s (get_status s)) s2 h2
          (Or.inr hne2)
        simp only [kind_outbound, hd]
        rfl
      · have hl2 : (set_status s (get_status s)).isLeader = false := by
          cases hb : (set_status s (get_status s)).isLeader
          · rfl
          · exact absurd hb hl
        rw [if_pos (by simp [hl2])] at h2
        cases h2
        rfl

/-- Witness for claim C1's amended theorem: the kafka topic conflict of
the spec scenario, with the blocking message evaluated. -/
theorem c1_amended_witness :
    get_status c1w_state =
      Status.blocked "To change topic: foo, please remove relation and add it again" := by
  have h := (c1_amended_blocked_on_conflict c1w_state ResourceKind.kafkaK "foo"
    (by decide) (by decide) (by decide) (by decide) (by decide) (by decide)
    (by decide) (by decide)
    (fun k2 hk => absurd hk (by simp [kinds_before]))
    (fun hc => nomatch hc)).1
  rw [h]
  decide

/-- Claim C5 (amended): for every state in which some backend is related
and a role value active on the first backend that has relations is
non-empty and differs from the corresponding configuration option,
`get_status` returns the blocking status "To change role info, please
remove relation and add it again" — provided no earlier check fires (some
resource kind is configured, any configured topic is acceptable, no
requested-entities-secret is configured).  Moreover the changed role
strings are not propagated provided every configured resource kind
already has its negotiated value on its relation and no mTLS certificate
is configured; without that caveat the handler does write the new role
strings to backends whose name guard is still open. -/
theorem c5_amended_role_change_blocked (s : CharmState)
    (hsec : optTruthy s.config.requestedEntitiesSecret = false)
    (hname : (optTruthy (topic_name s) || optTruthy (database_name s) ||
      optTruthy (index_name s) || optTruthy (pfx_name s)) = true)
    (htopic : optTruthy (topic_name s) = true →
      is_topic_value_acceptable ((topic_name s).getD "") = true)
    (hrel : any_backend_related s = true)
    (hrole : _changes_role_info s = true) :
    get_status s =
      Status.blocked "To change role info, please remove relation and add it again"
    ∧ ((optTruthy (database_name s) = true → (databases_active s).isEmpty = false) →
       (optTruthy (topic_name s) = true → optTruthy (topic_active s) = true) →
       (optTruthy (index_name s) = true → optTruthy (index_active s) = true) →
       (optTruthy (pfx_name s) = true →
         optTruthy (pfx_active s) = true ∧ s.config.mtlsCert = none) →
       ∀ s2, _on_config_changed s = some s2 →
         s2.dbs = s.dbs ∧ s2.kafka = s.kafka ∧
         s2.opensearch = s.opensearch ∧ s2.etcd = s.etcd) := by
  constructor
  · have h4 : (optTruthy (topic_name s) &&
        !is_topic_value_acceptable ((topic_name s).getD "")) = false := by
      cases htn : optTruthy (topic_name s)
      · simp
      · simp [htopic htn]
    have hrel2 := hrel
    unfold any_backend_related at hrel2
    unfold get_status
    rw [if_neg (by simp [hsec]), if_neg (by simp [hsec]), if_neg (by simp [hname]),
      if_neg (by simp [h4]), if_neg (by simp [hrel2]), if_pos (by simp [hrole])]
  · intro hD hT hI hP s2 h2
    unfold _on_config_changed at h2
    by_cases hl : (set_status s (get_status s)).isLeader = true
    · rw [if_neg (by simp [hl])] at h2
      refine ⟨?_, ?_, ?_, ?_⟩
      · refine reconcile_writes_dbs_preserved (set_status s (get_status s)) s2 h2 ?_
        cases hdn : optTruthy (database_name s)
        · exact Or.inl hdn
        · exact Or.inr (hD hdn)
      · refine reconcile_writes_kafka_preserved (set_status s (get_status s)) s2 h2 ?_
        cases htn : optTruthy (topic_name s)
        · exact Or.inl htn
        · exact Or.inr (Or.inl (hT htn))
      · refine reconcile_writes_opensearch_preserved (set_status s (get_status s)) s2 h2 ?_
        cases hin : optTruthy (index_name s)
        · exact Or.inl hin
        · exact Or.inr (hI hin)
      · refine reconcile_writes_etcd_preserved (set_status s (get_status s)) s2 h2 ?_
        cases hpn : optTruthy (pfx_name s)
        · exact Or.inl hpn
        · exact Or.inr (hP hpn)
    · have hl2 : (set_status s (get_status s)).isLeader = false := by
        cases hb : (set_status s (get_status s)).isLeader
        · rfl
        · exact absurd hb hl
      rw [if_pos (by simp [hl2])] at h2
      cases h2
      exact ⟨rfl, rfl, rfl, rfl⟩

/-- Witness for claim C5's amended theorem: a mysql backend with a
matching database name but a changed entity type blocks on role info. -/
theorem c5_amended_witness :
    get_status c5w_state =
      Status.blocked "To change role info, please remove relation and add it again" :=
  (c5_amended_role_change_blocked c5w_state (by decide) (by decide) (by decide)
    (by decide) (by decide)).1

/-! #### The get-credentials action: success-path evaluation -/

theorem mapM_option_eq_map {α β : Type} (f : α → Option β) (g : α → β)
    (l : List α) (h : ∀ a ∈ l, f a = some (g a)) :
    l.mapM f = some (l.map g) := by
  induction l with
  | nil => rfl
  | cons a t ih =>
    rw [List.mapM_cons, h a (List.mem_cons_self a t),
      ih (fun x hx => h x (List.mem_cons_of_mem a hx))]
    rfl

theorem databases_active_list_keys (l : List (String × List Relation))
    (p : String × String) (hp : p ∈ databases_active_list l) :
    p.1 ∈ l.map Prod.fst := by
  induction l with
  | nil => simp [databases_active_list] at hp
  | cons q rest ih =>
    obtain ⟨name, rl⟩ := q
    rcases rl with - | ⟨r, t⟩
    · simp only [databases_active_list] at hp
      exact List.mem_cons_of_mem _ (ih hp)
    · rcases hg : dbGet r.remote "database" with - | v
      · simp only [databases_active_list, hg] at hp
        exact List.mem_cons_of_mem _ (ih hp)
      · simp only [databases_active_list, hg] at hp
        by_cases hv : v = ""
        · rw [if_pos hv] at hp
          exact List.mem_cons_of_mem _ (ih hp)
        · rw [if_neg hv] at hp
          rcases List.mem_cons.mp hp with he | hm
          · rw [he]
            exact List.mem_cons_self _ _
          · exact List.mem_cons_of_mem _ (ih hm)

theorem databases_active_list_none_of_notmem (l : List (String × List Relation))
    (n : String) (hn : n ∉ l.map Prod.fst) :
    (databases_active_list l).find? (fun p => p.1 == n) = none := by
  rw [List.find?_eq_none]
  intro p hp
  simp only [beq_eq_false_iff_ne, ne_eq, Bool.not_eq_true, beq_iff_eq]
  intro he
  exact hn (he ▸ databases_active_list_keys l p hp)

theorem databases_active_list_mem_spec (l : List (String × List Relation))
    (hnd : (l.map Prod.fst).Nodup) (p : String × String)
    (hp : p ∈ databases_active_list l) :
    ∃ r t, ((l.find? (fun q => q.1 == p.1)).map Prod.snd) = some (r :: t)
      ∧ dbGet r.remote "database" = some p.2 ∧ p.2 ≠ "" := by
  induction l with
  | nil => simp [databases_active_list] at hp
  | cons q rest ih =>
    obtain ⟨name, rl⟩ := q
    rw [List.map_cons, List.nodup_cons] at hnd
    have hskip : p ∈ databases_active_list rest →
        ∃ r t, ((rest.find? (fun q => q.1 == p.1)).map Prod.snd) = some (r :: t)
          ∧ dbGet r.remote "database" = some p.2 ∧ p.2 ≠ "" :=
      fun hm => ih hnd.2 hm
    have hskipname : p ∈ databases_active_list rest → (name == p.1) = false := by
      intro hm
      have := databases_active_list_keys rest p hm
      simp only [beq_eq_false_iff_ne, ne_eq]
      intro he
      exact hnd.1 (he ▸ this)
    rcases rl with - | ⟨r, t⟩
    · simp only [databases_active_list] at hp
      obtain ⟨r2, t2, hf, hg, hv⟩ := hskip hp
      refine ⟨r2, t2, ?_, hg, hv⟩
      rw [List.find?_cons_of_neg _ (by simp [hskipname hp])]
      exact hf
    · rcases hg : dbGet r.remote "database" with - | v
      · simp only [databases_active_list, hg] at hp
        obtain ⟨r2, t2, hf, hg2, hv⟩ := hskip hp
        refine ⟨r2, t2, ?_, hg2, hv⟩
        rw [List.find?_cons_of_neg _ (by simp [hskipname hp])]
        exact hf
      · simp only [databases_active_list, hg] at hp
        by_cases hv : v = ""
        · rw [if_pos hv] at hp
          obtain ⟨r2, t2, hf, hg2, hv2⟩ := hskip hp
          refine ⟨r2, t2, ?_, hg2, hv2⟩
          rw [List.find?_cons_of_neg _ (by simp [hskipname hp])]
          exact hf
        · rw [if_neg hv] at hp
          rcases List.mem_cons.mp hp with he | hm
          · subst he
            refine ⟨r, t, ?_, ?_, ?_⟩
            · rw [List.find?_cons_of_pos _ (by simp)]
              rfl
            · exact hg
            · exact hv
          · obtain ⟨r2, t2, hf, hg2, hv2⟩ := hskip hm
            refine ⟨r2, t2, ?_, hg2, hv2⟩
            rw [List.find?_cons_of_neg _ (by simp [hskipname hm])]
            exact hf

theorem database_requirers_names (s : CharmState) :
    (database_requirers s).map Prod.fst = DATABASES := rfl

theorem databases_active_mem_spec (s : CharmState) (p : String × String)
    (hp : p ∈ databases_active s) :
    ∃ r t, lookup_requirer s p.1 = some (r :: t)
      ∧ dbGet r.remote "database" = some p.2 ∧ p.2 ≠ "" := by
  have hnd : ((database_requirers s).map Prod.fst).Nodup := by
    rw [database_requirers_names]
    decide
  obtain ⟨r, t, hf, hg, hv⟩ := databases_active_list_mem_spec _ hnd p hp
  exact ⟨r, t, hf, hg, hv⟩

theorem check_creds_head (rels : List Relation)
    (h : _check_for_credentials rels = true) :
    fetch_relation_data_first rels =
      some (((rels.head?.map Relation.remote)).getD []) := by
  cases rels with
  | nil => simp [_check_for_credentials] at h
  | cons r t => rfl

theorem etcd_relation_of_related (s : CharmState)
    (h : is_etcd_related s = true) : ∃ r, etcd_relation s = some r := by
  unfold is_etcd_related at h
  cases he : etcd_relation s with
  | none => rw [he] at h; simp at h
  | some r => exact ⟨r, rfl⟩

/-- The result dict the success path of the action computes, expressed by
direct reads of the state. -/
theorem get_credentials_success (s : CharmState)
    (hc : any_resource_configured s = true) (hr : any_backend_related s = true) :
    _on_get_credentials_action s = some (ActionOutcome.results (
      (("ok", ResVal.flag true) ::
        (databases_active s).map (fun p => (p.1, ResVal.fields
          ((((lookup_requirer s p.1).bind List.head?).map Relation.remote).getD []))))
      ++ (if is_kafka_related s then
            [(KAFKA, ResVal.fields ((s.kafka.head?.map Relation.remote).getD []))]
          else [])
      ++ (if is_opensearch_related s then
            [(OPENSEARCH, ResVal.fields
              ((s.opensearch.head?.map Relation.remote).getD []))]
          else [])
      ++ (if is_etcd_related s then
            [(ETCD, ResVal.optFields
              [("prefix", pfx_active s),
               ("uris", dbGet (((etcd_relation s).map Relation.remote).getD []) "uris"),
               ("endpoints", dbGet (((etcd_relation s).map Relation.remote).getD []) "endpoints"),
               ("username", dbGet (((etcd_relation s).map Relation.remote).getD []) "username"),
               ("tls-ca", dbGet (((etcd_relation s).map Relation.remote).getD []) "tls-ca"),
               ("version", dbGet (((etcd_relation s).map Relation.remote).getD []) "version")])]
          else []))) := by
  unfold _on_get_credentials_action
  rw [if_neg (by simp [hc]), if_neg (by simp [hr])]
  have hdb : (databases_active s).mapM (fun p => do
      let rels ← lookup_requirer s p.1
      let first ← fetch_relation_data_first rels
      pure (p.1, ResVal.fields first)) =
      some ((databases_active s).map (fun p => (p.1, ResVal.fields
        ((((lookup_requirer s p.1).bind List.head?).map Relation.remote).getD [])))) := by
    apply mapM_option_eq_map
    intro p hp
    obtain ⟨r, t, hf, -, -⟩ := databases_active_mem_spec s p hp
    rw [hf]
    rfl
  rw [hdb]
  try simp only [Option.pure_def, Option.bind_eq_bind, Option.some_bind]
  by_cases hk : is_kafka_related s
  · rw [if_pos hk, if_pos hk, check_creds_head s.kafka hk]
    try simp only [Option.pure_def, Option.bind_eq_bind, Option.some_bind]
    by_cases ho : is_opensearch_related s
    · rw [if_pos ho, if_pos ho, check_creds_head s.opensearch ho]
      try simp only [Option.pure_def, Option.bind_eq_bind, Option.some_bind]
      by_cases he : is_etcd_related s
      · obtain ⟨r, her⟩ := etcd_relation_of_related s he
        rw [if_pos he, if_pos he, her]
        try simp only [Option.pure_def, Option.bind_eq_bind, Option.some_bind, Option.map_some', Option.getD_some]
        try rfl
      · rw [if_neg he, if_neg he]
        try rfl
    · rw [if_neg ho, if_neg ho]
      try simp only [Option.pure_def, Option.bind_eq_bind, Option.some_bind]
      by_cases he : is_etcd_related s
      · obtain ⟨r, her⟩ := etcd_relation_of_related s he
        rw [if_pos he, if_pos he, her]
        try simp only [Option.pure_def, Option.bind_eq_bind, Option.some_bind, Option.map_some', Option.getD_some]
        try rfl
      · rw [if_neg he, if_neg he]
        try rfl
  · rw [if_neg hk, if_neg hk]
    try simp only [Option.pure_def, Option.bind_eq_bind, Option.some_bind]
    by_cases ho : is_opensearch_related s
    · rw [if_pos ho, if_pos ho, check_creds_head s.opensearch ho]
      try simp only [Option.pure_def, Option.bind_eq_bind, Option.some_bind]
      by_cases he : is_etcd_related s
      · obtain ⟨r, her⟩ := etcd_relation_of_related s he
        rw [if_pos he, if_pos he, her]
        try simp only [Option.pure_def, Option.bind_eq_bind, Option.some_bind, Option.map_some', Option.getD_some]
        try rfl
      · rw [if_neg he, if_neg he]
        try rfl
    · rw [if_neg ho, if_neg ho]
      try simp only [Option.pure_def, Option.bind_eq_bind, Option.some_bind]
      by_cases he : is_etcd_related s
      · obtain ⟨r, her⟩ := etcd_relation_of_related s he
        rw [if_pos he, if_pos he, her]
        try simp only [Option.pure_def, Option.bind_eq_bind, Option.some_bind, Option.map_some', Option.getD_some]
        try rfl
      · rw [if_neg he, if_neg he]
        try rfl

/-! #### Claim C2 -/

/-- Claim C2: the get-credentials action never reaches an unhandled
exception, and it fails in exactly two cases: with no resource kind
configured it fails with the "not specified" message and `{ok: false}`;
with a resource configured but no backend related it fails with the
"only after relation is created" message and `{ok: false}`; in every
other state it succeeds with a results dict. -/
theorem c2_get_credentials_failure_modes (s : CharmState) :
    (∃ r, _on_get_credentials_action s = some r)
    ∧ (any_resource_configured s = false →
        _on_get_credentials_action s = some (ActionOutcome.failed
          "The database name, topic name, index name, or prefix is not specified in the config."
          [("ok", ResVal.flag false)]))
    ∧ (any_resource_configured s = true → any_backend_related s = false →
        _on_get_credentials_action s = some (ActionOutcome.failed
          "The action can be run only after relation is created."
          [("ok", ResVal.flag false)]))
    ∧ (any_resource_configured s = true → any_backend_related s = true →
        ∃ res, _on_get_credentials_action s = some (ActionOutcome.results res)) := by
  have hfail1 : any_resource_configured s = false →
      _on_get_credentials_action s = some (ActionOutcome.failed
        "The database name, topic name, index name, or prefix is not specified in the config."
        [("ok", ResVal.flag false)]) := by
    intro hc
    unfold _on_get_credentials_action
    rw [if_pos (by simp [hc])]
  have hfail2 : any_resource_configured s = true → any_backend_related s = false →
      _on_get_credentials_action s = some (ActionOutcome.failed
        "The action can be run only after relation is created."
        [("ok", ResVal.flag false)]) := by
    intro hc hr
    unfold _on_get_credentials_action
    rw [if_neg (by simp [hc]), if_pos (by simp [hr])]
  have hok : any_resource_configured s = true → any_backend_related s = true →
      ∃ res, _on_get_credentials_action s = some (ActionOutcome.results res) := by
    intro hc hr
    exact ⟨_, get_credentials_success s hc hr⟩
  refine ⟨?_, hfail1, hfail2, hok⟩
  cases hc : any_resource_configured s
  · exact ⟨_, hfail1 hc⟩
  · cases hr : any_backend_related s
    · exact ⟨_, hfail2 hc hr⟩
    · obtain ⟨res, hres⟩ := hok hc hr
      exact ⟨_, hres⟩

/-- Witness for claim C2: the empty configuration fails with the "not
specified" message. -/
theorem c2_witness :
    _on_get_credentials_action baseState = some (ActionOutcome.failed
      "The database name, topic name, index name, or prefix is not specified in the config."
      [("ok", ResVal.flag false)]) :=
  (c2_get_credentials_failure_modes baseState).2.1 (by decide)

/-! #### Claim C3: the shape of the success result -/

theorem lookupRes_cons (p : String × ResVal) (t : List (String × ResVal))
    (k : String) :
    lookupRes (p :: t) k = if p.1 == k then some p.2 else lookupRes t k := by
  unfold lookupRes
  cases hp : (p.1 == k) <;> simp [List.find?, hp]

theorem lookupRes_append (l1 l2 : List (String × ResVal)) (k : String) :
    lookupRes (l1 ++ l2) k = ((lookupRes l1 k).or (lookupRes l2 k)) := by
  unfold lookupRes
  rw [List.find?_append]
  cases l1.find? (fun p => p.1 == k) <;> simp

theorem lookupRes_nil (k : String) : lookupRes [] k = none := rfl

theorem databases_active_list_find_eq (l : List (String × List Relation))
    (hnd : (l.map Prod.fst).Nodup) (n : String) :
    (databases_active_list l).find? (fun p => p.1 == n) =
      (match ((l.find? (fun q => q.1 == n)).map Prod.snd) with
       | some rels =>
         (match rels.head? with
          | some r =>
            (match dbGet r.remote "database" with
             | some v => if v = "" then none else some (n, v)
             | none => none)
          | none => none)
       | none => none) := by
  induction l with
  | nil => rfl
  | cons q rest ih =>
    obtain ⟨name, rl⟩ := q
    rw [List.map_cons, List.nodup_cons] at hnd
    by_cases hn : name = n
    · subst hn
      rw [List.find?_cons_of_pos _ (by simp)]
      simp only [Option.map_some']
      rcases rl with - | ⟨r, t⟩
      · simp only [databases_active_list]
        rw [databases_active_list_none_of_notmem rest name hnd.1]
        try rfl
      · rcases hg : dbGet r.remote "database" with - | v
        · simp only [databases_active_list, hg, List.head?]
          rw [databases_active_list_none_of_notmem rest name hnd.1]
          try rfl
        · simp only [databases_active_list, hg, List.head?]
          by_cases hv : v = ""
          · rw [if_pos hv, if_pos hv]
            rw [databases_active_list_none_of_notmem rest name hnd.1]
            try rfl
          · rw [if_neg hv, if_neg hv]
            rw [List.find?_cons_of_pos _ (by simp)]
            try rfl
    · have hnb : (name == n) = false := by simpa using hn
      rw [List.find?_cons_of_neg _ (by simp [hnb])]
      rcases rl with - | ⟨r, t⟩
      · simp only [databases_active_list]
        exact ih hnd.2
      · rcases hg : dbGet r.remote "database" with - | v
        · simp only [databases_active_list, hg]
          exact ih hnd.2
        · simp only [databases_active_list, hg]
          by_cases hv : v = ""
          · rw [if_pos hv]
            exact ih hnd.2
          · rw [if_neg hv]
            rw [List.find?_cons_of_neg _ (by simp [hnb])]
            exact ih hnd.2

theorem lookup_requirer_mem_databases (s : CharmState) (n : String)
    (rels : List Relation) (h : lookup_requirer s n = some rels) :
    n ∈ DATABASES := by
  unfold lookup_requirer at h
  cases hf : (database_requirers s).find? (fun p => p.1 == n) with
  | none => rw [hf] at h; simp at h
  | some q =>
    have hq : q.1 = n := by
      have := List.find?_some hf
      simpa using this
    have hqm : q ∈ database_requirers s := List.mem_of_find?_eq_some hf
    have hmm : q.1 ∈ (database_requirers s).map Prod.fst := List.mem_map_of_mem _ hqm
    rw [database_requirers_names] at hmm
    rwa [hq] at hmm

theorem databases_names_distinct :
    ∀ n ∈ DATABASES, ("ok" == n) = false ∧ (KAFKA == n) = false ∧
      (OPENSEARCH == n) = false ∧ (ETCD == n) = false := by decide

/-- Claim C3 (amended): when a resource is configured and some backend has
provisioned data, the action succeeds with an "ok: true" result whose
sub-objects are keyed by backend kind as the code builds them: each
database kind appears exactly when its first relation publishes a
non-empty "database" field, with the full remote databag as value; kafka
and opensearch appear exactly when they have provisioned credentials,
with the full remote databag unchanged; etcd appears exactly when fully
provisioned, but with a fixed field set (prefix read from our own
databag, plus uris, endpoints, username, tls-ca and version from the
backend) rather than the raw published databag; all other kinds are
omitted. -/
theorem c3_amended_success_shape (s : CharmState)
    (hc : any_resource_configured s = true) (hr : any_backend_related s = true) :
    (∃ res, _on_get_credentials_action s = some (ActionOutcome.results res))
    ∧ (∀ res, _on_get_credentials_action s = some (ActionOutcome.results res) →
        lookupRes res "ok" = some (ResVal.flag true)
        ∧ (∀ n rels, lookup_requirer s n = some rels →
            lookupRes res n =
              (match rels.head? with
               | some r => if optTruthy (dbGet r.remote "database")
                   then some (ResVal.fields r.remote) else none
               | none => none))
        ∧ lookupRes res KAFKA = (if is_kafka_related s
            then s.kafka.head?.map (fun r => ResVal.fields r.remote) else none)
        ∧ lookupRes res OPENSEARCH = (if is_opensearch_related s
            then s.opensearch.head?.map (fun r => ResVal.fields r.remote) else none)
        ∧ lookupRes res ETCD = (if is_etcd_related s
            then (etcd_relation s).map (fun r => ResVal.optFields
              [("prefix", pfx_active s), ("uris", dbGet r.remote "uris"),
               ("endpoints", dbGet r.remote "endpoints"),
               ("username", dbGet r.remote "username"),
               ("tls-ca", dbGet r.remote "tls-ca"),
               ("version", dbGet r.remote "version")])
            else none)) := by
  have hsucc := get_credentials_success s hc hr
  refine ⟨⟨_, hsucc⟩, ?_⟩
  intro res hres
  rw [hsucc] at hres
  have hres2 : res = (("ok", ResVal.flag true) ::
        (databases_active s).map (fun p => (p.1, ResVal.fields
          ((((lookup_requirer s p.1).bind List.head?).map Relation.remote).getD []))))
      ++ (if is_kafka_related s then
            [(KAFKA, ResVal.fields ((s.kafka.head?.map Relation.remote).getD []))]
          else [])
      ++ (if is_opensearch_related s then
            [(OPENSEARCH, ResVal.fields
              ((s.opensearch.head?.map Relation.remote).getD []))]
          else [])
      ++ (if is_etcd_related s then
            [(ETCD, ResVal.optFields
              [("prefix", pfx_active s),
               ("uris", dbGet (((etcd_relation s).map Relation.remote).getD []) "uris"),
               ("endpoints", dbGet (((etcd_relation s).map Relation.remote).getD []) "endpoints"),
               ("username", dbGet (((etcd_relation s).map Relation.remote).getD []) "username"),
               ("tls-ca", dbGet (((etcd_relation s).map Relation.remote).getD []) "tls-ca"),
               ("version", dbGet (((etcd_relation s).map Relation.remote).getD []) "version")])]
          else []) := by
    have := hres
    simp only [Option.some.injEq] at this
    cases this
    rfl
  subst hres2
  have hdblkeys : ∀ q ∈ (databases_active s).map (fun p => (p.1, ResVal.fields
      ((((lookup_requirer s p.1).bind List.head?).map Relation.remote).getD []))),
      q.1 ∈ DATABASES := by
    intro q hq
    obtain ⟨p, hp, hpq⟩ := List.mem_map.mp hq
    have := databases_active_list_keys (database_requirers s) p hp
    rw [database_requirers_names] at this
    rw [← hpq]
    exact this
  have hKnone : ∀ n2, (KAFKA == n2) = false →
      lookupRes (if is_kafka_related s then
        [(KAFKA, ResVal.fields ((s.kafka.head?.map Relation.remote).getD []))]
        else []) n2 = none := by
    intro n2 hne
    split
    · rw [lookupRes_cons]
      simp [hne, lookupRes_nil]
    · exact lookupRes_nil n2
  have hOnone : ∀ n2, (OPENSEARCH == n2) = false →
      lookupRes (if is_opensearch_related s then
        [(OPENSEARCH, ResVal.fields ((s.opensearch.head?.map Relation.remote).getD []))]
        else []) n2 = none := by
    intro n2 hne
    split
    · rw [lookupRes_cons]
      simp [hne, lookupRes_nil]
    · exact lookupRes_nil n2
  have hEnone : ∀ n2, (ETCD == n2) = false →
      lookupRes (if is_etcd_related s then
        [(ETCD, ResVal.optFields
          [("prefix", pfx_active s),
           ("uris", dbGet (((etcd_relation s).map Relation.remote).getD []) "uris"),
           ("endpoints", dbGet (((etcd_relation s).map Relation.remote).getD []) "endpoints"),
           ("username", dbGet (((etcd_relation s).map Relation.remote).getD []) "username"),
           ("tls-ca", dbGet (((etcd_relation s).map Relation.remote).getD []) "tls-ca"),
           ("version", dbGet (((etcd_relation s).map Relation.remote).getD []) "version")])]
        else []) n2 = none := by
    intro n2 hne
    split
    · rw [lookupRes_cons]
      simp [hne, lookupRes_nil]
    · exact lookupRes_nil n2
  have hdblnone : ∀ n2, n2 ∉ DATABASES →
      lookupRes ((databases_active s).map (fun p => (p.1, ResVal.fields
        ((((lookup_requirer s p.1).bind List.head?).map Relation.remote).getD [])))) n2
        = none := by
    intro n2 hn2
    unfold lookupRes
    rw [List.find?_eq_none.mpr]
    · rfl
    · intro q hq
      simp only [Bool.not_eq_true, beq_eq_false_iff_ne, ne_eq]
      intro he
      exact hn2 (he ▸ hdblkeys q hq)
  refine ⟨?_, ?_, ?_, ?_, ?_⟩
  · rw [lookupRes_append, lookupRes_append, lookupRes_append, lookupRes_cons]
    simp
  · intro n rels hlr
    have hmem := lookup_requirer_mem_databases s n rels hlr
    obtain ⟨hok, hkaf, hos, hetc⟩ := databases_names_distinct n hmem
    rw [lookupRes_append, lookupRes_append, lookupRes_append, lookupRes_cons]
    rw [if_neg (by simp [hok]), hKnone n hkaf, hOnone n hos, hEnone n hetc]
    have hnd : ((database_requirers s).map Prod.fst).Nodup := by
      rw [database_requirers_names]
      decide
    unfold lookupRes
    rw [List.find?_map]
    have hcomp : ((fun q : String × ResVal => q.1 == n) ∘
        (fun p : String × String => (p.1, ResVal.fields
          ((((lookup_requirer s p.1).bind List.head?).map Relation.remote).getD [])))) =
        (fun p : String × String => p.1 == n) := rfl
    rw [hcomp]
    unfold databases_active
    rw [databases_active_list_find_eq (database_requirers s) hnd n]
    rw [show ((database_requirers s).find? (fun q => q.1 == n)).map Prod.snd
        = some rels from hlr]
    cases hh : rels.head? with
    | none =>
      simp only [hh]
      rfl
    | some r =>
      simp only [hh]
      cases hg : dbGet r.remote "database" with
      | none =>
        simp only [hg]
        simp [optTruthy]
      | some v =>
        simp only [hg]
        by_cases hv : v = ""
        · rw [if_pos hv]
          simp [optTruthy, hv]
        · rw [if_neg hv]
          simp [optTruthy, hv, hlr, hh]
  · rw [lookupRes_append, lookupRes_append, lookupRes_append, lookupRes_cons,
      if_neg (by decide), hdblnone KAFKA (by decide),
      hOnone KAFKA (by decide), hEnone KAFKA (by decide)]
    by_cases hk : is_kafka_related s
    · rw [if_pos hk, if_pos hk, lookupRes_cons, if_pos (by simp)]
      have hne : s.kafka ≠ [] := by
        intro hnil
        unfold is_kafka_related _check_for_credentials at hk
        rw [hnil] at hk
        simp at hk
      cases hkh : s.kafka with
      | nil => exact absurd hkh hne
      | cons r t => simp
    · rw [if_neg hk, if_neg hk, lookupRes_nil]
      simp
  · rw [lookupRes_append, lookupRes_append, lookupRes_append, lookupRes_cons,
      if_neg (by decide), hdblnone OPENSEARCH (by decide),
      hKnone OPENSEARCH (by decide), hEnone OPENSEARCH (by decide)]
    by_cases ho : is_opensearch_related s
    · rw [if_pos ho, if_pos ho, lookupRes_cons, if_pos (by simp)]
      have hne : s.opensearch ≠ [] := by
        intro hnil
        unfold is_opensearch_related _check_for_credentials at ho
        rw [hnil] at ho
        simp at ho
      cases hoh : s.opensearch with
      | nil => exact absurd hoh hne
      | cons r t => simp
    · rw [if_neg ho, if_neg ho, lookupRes_nil]
      simp
  · rw [lookupRes_append, lookupRes_append, lookupRes_append, lookupRes_cons,
      if_neg (by decide), hdblnone ETCD (by decide),
      hKnone ETCD (by decide), hOnone ETCD (by decide)]
    by_cases he : is_etcd_related s
    · obtain ⟨r, her⟩ := etcd_relation_of_related s he
      rw [if_pos he, if_pos he, her, lookupRes_cons, if_pos (by simp)]
      simp [her]
    · rw [if_neg he, if_neg he, lookupRes_nil]
      simp

/-- Witness for claim C3's amended theorem: the spec's round-trip
scenario returns exactly the fields the mysql backend published. -/
theorem c3_amended_witness :
    lookupRes c3w_res "mysql" =
      some (ResVal.fields [("username", "u"), ("password", "p"), ("database", "foo")]) :=
  ((c3_amended_success_shape c3w_state (by decide) (by decide)).2 c3w_res
    (by decide)).2.1 "mysql"
    [⟨[("username", "u"), ("password", "p"), ("database", "foo")], []⟩]
    (by decide)

/-! #### Claim C8: the peer-databag status tags -/

theorem dbGet_mem (d : Databag) (k v : String) (h : dbGet d k = some v) :
    (k, v) ∈ d := by
  unfold dbGet at h
  cases hf : d.find? (fun p => p.1 == k) with
  | none => rw [hf] at h; simp at h
  | some p =>
    rw [hf] at h
    simp only [Option.some.injEq] at h
    have hk : p.1 = k := by
      have := List.find?_some hf
      simpa using this
    have hm := List.mem_of_find?_eq_some hf
    have hpe : p = (k, v) := by
      cases p
      simp_all
    rwa [hpe] at hm

theorem dbGet_of_mem_nodup (d : Databag) (p : String × String)
    (hnd : (d.map Prod.fst).Nodup) (hm : p ∈ d) : dbGet d p.1 = some p.2 := by
  induction d with
  | nil => simp at hm
  | cons q t ih =>
    rw [List.map_cons, List.nodup_cons] at hnd
    rw [dbGet_cons]
    rcases List.mem_cons.mp hm with he | hm2
    · subst he
      simp
    · have hne : (q.1 == p.1) = false := by
        simp only [beq_eq_false_iff_ne, ne_eq]
        intro he2
        exact hnd.1 (he2 ▸ List.mem_map_of_mem Prod.fst hm2)
      rw [if_neg (by simp [hne])]
      exact ih hnd.2 hm2

theorem dbSet_keys_of_hasKey (d : Databag) (k v : String)
    (h : dbHasKey d k = true) :
    (dbSet d k v).map Prod.fst = d.map Prod.fst := by
  unfold dbSet
  rw [if_pos h, List.map_map]
  apply List.map_congr_left
  intro p hp
  show (if (p.1 == k) = true then (k, v) else p).1 = p.1
  by_cases hq : p.1 = k
  · rw [if_pos (show (p.1 == k) = true by simp [hq])]
    exact hq.symm
  · rw [if_neg (show ¬((p.1 == k) = true) by simp [hq])]

theorem dbHasKey_of_keys (d : Databag) (k : String) :
    dbHasKey d k = (d.map Prod.fst).any (fun a => a == k) := by
  induction d with
  | nil => rfl
  | cons p t ih =>
    unfold dbHasKey at ih ⊢
    rw [List.map_cons, List.any_cons, List.any_cons, ih]

theorem removed_mem_broken (d : Databag) (n : String)
    (h : n ∈ (d.filter (fun p => p.2 == "BROKEN")).map Prod.fst) :
    ∃ p ∈ d, p.1 = n ∧ p.2 = "BROKEN" := by
  obtain ⟨p, hp, he⟩ := List.mem_map.mp h
  have hq := List.mem_filter.mp hp
  exact ⟨p, hq.1, he, by simpa using hq.2⟩

theorem broken_mem_removed (d : Databag) (p : String × String)
    (hm : p ∈ d) (hb : p.2 = "BROKEN") :
    p.1 ∈ (d.filter (fun q => q.2 == "BROKEN")).map Prod.fst :=
  List.mem_map_of_mem _ (List.mem_filter.mpr ⟨hm, by simp [hb]⟩)

theorem model_relations_nonempty_peer_irrel (x : CharmState) (d : Databag)
    (n : String) :
    model_relations_nonempty { x with peerApp := d } n =
      model_relations_nonempty x n := rfl

theorem process_removed_spec (names : List String) (x : CharmState)
    (hpx : x.hasPeer = true)
    (hknown : ∀ n ∈ names, (model_relations_nonempty x n).isSome = true)
    (hkeys : ∀ n ∈ names, dbHasKey x.peerApp n = true) :
    ∃ s2, process_removed x names = some s2
      ∧ s2.peerApp.map Prod.fst = x.peerApp.map Prod.fst
      ∧ s2.dbs = x.dbs ∧ s2.kafka = x.kafka ∧ s2.opensearch = x.opensearch
      ∧ s2.etcd = x.etcd ∧ s2.config = x.config ∧ s2.hasPeer = x.hasPeer
      ∧ s2.unitStatus = x.unitStatus
      ∧ (∀ k, dbGet s2.peerApp k =
          (if k ∈ names ∧ model_relations_nonempty x k = some false
           then some "REMOVED" else dbGet x.peerApp k)) := by
  induction names generalizing x with
  | nil =>
    refine ⟨x, rfl, rfl, rfl, rfl, rfl, rfl, rfl, rfl, rfl, ?_⟩
    intro k
    rw [if_neg (by simp)]
  | cons n rest ih =>
    have hkn := hknown n (List.mem_cons_self n rest)
    cases hb : model_relations_nonempty x n with
    | none => rw [hb] at hkn; simp at hkn
    | some b =>
      cases b with
      | true =>
        obtain ⟨s2, hs2, hk2, hd2, hka2, ho2, he2, hc2, hp2, hu2, hget⟩ :=
          ih x hpx (fun m hm => hknown m (List.mem_cons_of_mem n hm))
            (fun m hm => hkeys m (List.mem_cons_of_mem n hm))
        refine ⟨s2, ?_, hk2, hd2, hka2, ho2, he2, hc2, hp2, hu2, ?_⟩
        · unfold process_removed
          rw [hb]
          exact hs2
        · intro k
          rw [hget k]
          by_cases hkn2 : k = n
          · subst hkn2
            rw [if_neg (by simp [hb]), if_neg (by simp [hb])]
          · by_cases hkr : k ∈ rest
            · simp [hkr, hkn2]
            · simp [hkr, hkn2]
      | false =>
        have hset : set_secret_app x n (some "REMOVED") =
            some { x with peerApp := dbSet x.peerApp n "REMOVED" } := by
          unfold set_secret_app
          rw [if_neg (by simp [optTruthy]), if_pos hpx]
          rfl
        obtain ⟨s2, hs2, hk2, hd2, hka2, ho2, he2, hc2, hp2, hu2, hget⟩ :=
          ih { x with peerApp := dbSet x.peerApp n "REMOVED" } hpx
            (fun m hm => hknown m (List.mem_cons_of_mem n hm))
            (fun m hm => by
              rw [dbHasKey_of_keys, dbSet_keys_of_hasKey x.peerApp n "REMOVED"
                (hkeys n (List.mem_cons_self n rest)), ← dbHasKey_of_keys]
              exact hkeys m (List.mem_cons_of_mem n hm))
        refine ⟨s2, ?_, ?_, hd2, hka2, ho2, he2, hc2, hp2, hu2, ?_⟩
        · unfold process_removed
          rw [hb, hset]
          exact hs2
        · rw [hk2]
          exact dbSet_keys_of_hasKey x.peerApp n "REMOVED"
            (hkeys n (List.mem_cons_self n rest))
        · have hget2 : ∀ k, dbGet s2.peerApp k =
              (if k ∈ rest ∧ model_relations_nonempty x k = some false
               then some "REMOVED" else dbGet (dbSet x.peerApp n "REMOVED") k) := by
            intro k
            rw [hget k]
            rfl
          intro k
          rw [hget2 k]
          by_cases hkn2 : k = n
          · rw [hkn2]
            rw [if_pos (show n ∈ n :: rest ∧ model_relations_nonempty x n = some false
              from ⟨List.mem_cons_self n rest, hb⟩)]
            by_cases hkr : n ∈ rest
            · rw [if_pos (show n ∈ rest ∧ model_relations_nonempty x n = some false
                from ⟨hkr, hb⟩)]
            · rw [if_neg (show ¬(n ∈ rest ∧ model_relations_nonempty x n = some false)
                from fun hc => hkr hc.1)]
              exact dbGet_dbSet_self x.peerApp n "REMOVED"
          · rw [dbGet_dbSet_ne x.peerApp n k "REMOVED" hkn2]
            by_cases hc : k ∈ rest ∧ model_relations_nonempty x k = some false
            · rw [if_pos hc, if_pos (show k ∈ n :: rest ∧
                model_relations_nonempty x k = some false
                from ⟨List.mem_cons_of_mem n hc.1, hc.2⟩)]
            · rw [if_neg hc, if_neg (show ¬(k ∈ n :: rest ∧
                model_relations_nonempty x k = some false)
                from fun hc2 => hc ⟨(List.mem_cons.mp hc2.1).resolve_left hkn2, hc2.2⟩)]

/-- Claim C8: the per-relation status tag in the peer databag.  On the
leader with a peer relation: a relation-broken event records `BROKEN` and
a created event records `ACTIVE` for the relation; the peer-changed
handler rewrites a `BROKEN` tag to `REMOVED` exactly when no relation of
that name remains, leaves a `BROKEN` tag whose relation still exists
unchanged, leaves non-`BROKEN` tags unchanged, preserves the set of keys,
and therefore keeps every tag in the three-value set
{ACTIVE, BROKEN, REMOVED}. -/
theorem c8_relation_status_lifecycle (s : CharmState) (name : String)
    (hl : s.isLeader = true) (hp : s.hasPeer = true) :
    _on_relation_broken s name =
      some { s with peerApp := dbSet s.peerApp name "BROKEN" }
    ∧ _update_relation_status s name "ACTIVE" =
      some { s with peerApp := dbSet s.peerApp name "ACTIVE" }
    ∧ ((s.peerApp.map Prod.fst).Nodup →
       (∀ q ∈ s.peerApp, (model_relations_nonempty s q.1).isSome = true) →
       ∃ s2, _on_peer_relation_changed s = some s2
         ∧ s2.peerApp.map Prod.fst = s.peerApp.map Prod.fst
         ∧ (∀ k, dbGet s2.peerApp k =
             (match dbGet s.peerApp k with
              | some v => some (if v = "BROKEN" ∧
                  model_relations_nonempty s k = some false then "REMOVED" else v)
              | none => none))
         ∧ ((∀ q ∈ s.peerApp, q.2 = "ACTIVE" ∨ q.2 = "BROKEN" ∨ q.2 = "REMOVED") →
            ∀ q2 ∈ s2.peerApp, q2.2 = "ACTIVE" ∨ q2.2 = "BROKEN" ∨ q2.2 = "REMOVED")) := by
  refine ⟨?_, ?_, ?_⟩
  · unfold _on_relation_broken _update_relation_status set_secret_app
    rw [if_neg (by simp [hl]), if_neg (by simp [optTruthy]), if_pos hp]
    rfl
  · unfold _update_relation_status set_secret_app
    rw [if_neg (by simp [hl]), if_neg (by simp [optTruthy]), if_pos hp]
    rfl
  · intro hnd hknown
    unfold _on_peer_relation_changed
    rw [if_neg (by simp [hl])]
    have happ : app_peer_data s = s.peerApp := by
      unfold app_peer_data
      rw [if_pos hp]
    rw [happ]
    by_cases hemp : ((s.peerApp.filter (fun p => p.2 == "BROKEN")).map
        (fun p => p.1)).isEmpty = true
    · rw [if_pos hemp]
      refine ⟨s, rfl, rfl, ?_, ?_⟩
      · intro k
        cases hg : dbGet s.peerApp k with
        | none => rfl
        | some v =>
          by_cases hbv : v = "BROKEN"
          · exfalso
            have hmem := dbGet_mem s.peerApp k v hg
            have := broken_mem_removed s.peerApp (k, v) hmem hbv
            rw [List.isEmpty_iff] at hemp
            have hemp2 : (s.peerApp.filter (fun p => p.2 == "BROKEN")).map Prod.fst
                = [] := by
              have hm : ((s.peerApp.filter (fun p => p.2 == "BROKEN")).map
                  (fun p => p.1)) = (s.peerApp.filter
                  (fun p => p.2 == "BROKEN")).map Prod.fst := rfl
              rw [← hm, hemp]
            rw [hemp2] at this
            simp at this
          · simp [hbv]
      · intro hall q2 hq2
        exact hall q2 hq2
    · rw [if_neg hemp]
      have hknown2 : ∀ n ∈ (s.peerApp.filter (fun p => p.2 == "BROKEN")).map
          (fun p => p.1), (model_relations_nonempty
            (set_status s (get_status s)) n).isSome = true := by
        intro n hn
        obtain ⟨p, hpm, hp1, -⟩ := removed_mem_broken s.peerApp n hn
        have := hknown p hpm
        rw [hp1] at this
        exact this
      have hkeys2 : ∀ n ∈ (s.peerApp.filter (fun p => p.2 == "BROKEN")).map
          (fun p => p.1), dbHasKey (set_status s (get_status s)).peerApp n = true := by
        intro n hn
        obtain ⟨p, hpm, hp1, -⟩ := removed_mem_broken s.peerApp n hn
        unfold dbHasKey
        apply List.any_of_mem hpm
        simp [hp1]
      obtain ⟨s2, hs2, hk2, hd2, hka2, ho2, he2, hc2, hp2, hu2, hget⟩ :=
        process_removed_spec _ (set_status s (get_status s)) hp hknown2 hkeys2
      have hget2 : ∀ k, dbGet s2.peerApp k =
          (if k ∈ (s.peerApp.filter (fun p => p.2 == "BROKEN")).map (fun p => p.1) ∧
              model_relations_nonempty s k = some false
           then some "REMOVED" else dbGet s.peerApp k) := by
        intro k
        rw [hget k]
        rfl
      refine ⟨s2, hs2, hk2, ?_, ?_⟩
      · intro k
        rw [hget2 k]
        cases hg : dbGet s.peerApp k with
        | none =>
          have hnr : k ∉ (s.peerApp.filter (fun p => p.2 == "BROKEN")).map
              (fun p => p.1) := by
            intro hk
            obtain ⟨p, hpm, hp1, -⟩ := removed_mem_broken s.peerApp k hk
            have := dbGet_of_mem_nodup s.peerApp p hnd hpm
            rw [hp1, hg] at this
            simp at this
          rw [if_neg (by simp [hnr])]
        | some v =>
          by_cases hbv : v = "BROKEN"
          · subst hbv
            have hmem := dbGet_mem s.peerApp k "BROKEN" hg
            have hinr : k ∈ (s.peerApp.filter (fun p => p.2 == "BROKEN")).map
                (fun p => p.1) := broken_mem_removed s.peerApp (k, "BROKEN") hmem rfl
            cases hmr : model_relations_nonempty s k with
            | none =>
              have := hknown (k, "BROKEN") hmem
              rw [hmr] at this
              simp at this
            | some b =>
              cases b with
              | true => simp
              | false => simp [hinr]
          · have hnr : k ∉ (s.peerApp.filter (fun p => p.2 == "BROKEN")).map
                (fun p => p.1) := by
              intro hk
              obtain ⟨p, hpm, hp1, hpb⟩ := removed_mem_broken s.peerApp k hk
              have := dbGet_of_mem_nodup s.peerApp p hnd hpm
              rw [hp1, hg] at this
              simp only [Option.some.injEq] at this
              exact hbv (this.trans hpb)
            rw [if_neg (by simp [hnr])]
            simp [hbv]
      · intro hall q2 hq2
        have hnd2 : (s2.peerApp.map Prod.fst).Nodup := by
          rw [hk2]
          exact hnd
        have hg2 := dbGet_of_mem_nodup s2.peerApp q2 hnd2 hq2
        rw [hget2 q2.1] at hg2
        by_cases hcond : q2.1 ∈ (s.peerApp.filter (fun p => p.2 == "BROKEN")).map
            (fun p => p.1) ∧ model_relations_nonempty s q2.1 = some false
        · rw [if_pos hcond] at hg2
          simp only [Option.some.injEq] at hg2
          right; right
          exact hg2.symm
        · rw [if_neg hcond] at hg2
          have hmem := dbGet_mem s.peerApp q2.1 q2.2 hg2
          exact hall (q2.1, q2.2) hmem

/-- Witness for claim C8 at a concrete leader state: mysql's `BROKEN` tag
becomes `REMOVED` (its relation is gone) while kafka's `ACTIVE` tag is
untouched. -/
theorem c8_witness :
    _on_relation_broken c8_state "opensearch" =
      some { c8_state with peerApp := dbSet c8_state.peerApp "opensearch" "BROKEN" }
    ∧ dbGet (dbSet c8_state.peerApp "mysql" "ACTIVE") "mysql" = some "ACTIVE"
    ∧ (∃ s2, _on_peer_relation_changed c8_state = some s2
        ∧ dbGet s2.peerApp "mysql" = some "REMOVED"
        ∧ dbGet s2.peerApp "kafka" = some "ACTIVE") := by
  have h := c8_relation_status_lifecycle c8_state "opensearch" (by decide) (by decide)
  refine ⟨h.1, by decide, ?_⟩
  obtain ⟨s2, hs2, -, hget, -⟩ := h.2.2 (by decide) (by decide)
  refine ⟨s2, hs2, ?_, ?_⟩
  · rw [hget "mysql"]
    decide
  · rw [hget "kafka"]
    decide

/-! #### Claim C6: idempotence of the write pipeline -/

theorem dbHasKey_dbSet_self (d : Databag) (k v : String) :
    dbHasKey (dbSet d k v) k = true := by
  unfold dbSet
  split
  · rename_i hk
    unfold dbHasKey at hk ⊢
    obtain ⟨p, hp, hpk⟩ := List.any_eq_true.mp hk
    refine List.any_eq_true.mpr
      ⟨if p.1 == k then (k, v) else p, List.mem_map_of_mem _ hp, ?_⟩
    rw [if_pos hpk]
    simp
  · unfold dbHasKey
    exact List.any_eq_true.mpr ⟨(k, v), by simp, by simp⟩

theorem dbHasKey_dbSet_mono (d : Databag) (k v k2 : String)
    (h : dbHasKey d k2 = true) : dbHasKey (dbSet d k v) k2 = true := by
  unfold dbHasKey at h
  obtain ⟨p, hp, hpk⟩ := List.any_eq_true.mp h
  unfold dbSet
  split
  · unfold dbHasKey
    refine List.any_eq_true.mpr
      ⟨if p.1 == k then (k, v) else p, List.mem_map_of_mem _ hp, ?_⟩
    by_cases hq : (p.1 == k) = true
    · rw [if_pos hq]
      have h1 : p.1 = k := by simpa using hq
      have h2 : p.1 = k2 := by simpa using hpk
      simp [← h1, h2]
    · rw [if_neg hq]
      exact hpk
  · unfold dbHasKey
    exact List.any_eq_true.mpr ⟨p, by simp [hp], hpk⟩

theorem dbSet_all (d : Databag) (k v : String) :
    ∀ p ∈ dbSet d k v, p.1 = k → p.2 = v := by
  intro p hp hpk
  unfold dbSet at hp
  split at hp
  · obtain ⟨q, hq, he⟩ := List.mem_map.mp hp
    by_cases hqk : (q.1 == k) = true
    · rw [if_pos hqk] at he
      rw [← he]
    · rw [if_neg hqk] at he
      subst he
      exact absurd (by simpa using hpk) hqk
  · rename_i hk
    rcases List.mem_append.mp hp with hd | hs
    · exfalso
      exact hk (List.any_eq_true.mpr ⟨p, hd, by simp [hpk]⟩)
    · simp only [List.mem_singleton] at hs
      subst hs
      rfl

theorem dbSet_other_all (d : Databag) (k v k2 v2 : String)
    (hall : ∀ p ∈ d, p.1 = k → p.2 = v) (hne : k ≠ k2) :
    ∀ p ∈ dbSet d k2 v2, p.1 = k → p.2 = v := by
  intro p hp hpk
  unfold dbSet at hp
  split at hp
  · obtain ⟨q, hq, he⟩ := List.mem_map.mp hp
    by_cases hqk : (q.1 == k2) = true
    · rw [if_pos hqk] at he
      subst he
      exact absurd hpk.symm hne
    · rw [if_neg hqk] at he
      subst he
      exact hall q hq hpk
  · rcases List.mem_append.mp hp with hd | hs
    · exact hall p hd hpk
    · simp only [List.mem_singleton] at hs
      subst hs
      exact absurd hpk.symm hne

theorem dbSet_already_all (d : Databag) (k v : String)
    (hall : ∀ p ∈ d, p.1 = k → p.2 = v) (hk : dbHasKey d k = true) :
    dbSet d k v = d := by
  unfold dbSet
  rw [if_pos hk]
  have hpt : ∀ p ∈ d, (if (p.1 == k) = true then (k, v) else p) = id p := by
    intro p hp
    by_cases hq : (p.1 == k) = true
    · rw [if_pos hq]
      have h1 : p.1 = k := by simpa using hq
      have h2 := hall p hp h1
      rw [← h1, ← h2]
      rfl
    · rw [if_neg hq]
      rfl
  rw [List.map_congr_left hpt, List.map_id]

theorem dbErase_all (d : Databag) (k v m : String)
    (hall : ∀ p ∈ d, p.1 = k → p.2 = v) :
    ∀ p ∈ dbErase d m, p.1 = k → p.2 = v := by
  intro p hp
  exact hall p (List.mem_of_mem_filter hp)

theorem dbHasKey_dbErase_of_ne (d : Databag) (k m : String)
    (h : dbHasKey d k = true) (hne : k ≠ m) : dbHasKey (dbErase d m) k = true := by
  unfold dbHasKey at h ⊢
  obtain ⟨p, hp, hpk⟩ := List.any_eq_true.mp h
  refine List.any_eq_true.mpr ⟨p, ?_, hpk⟩
  unfold dbErase
  refine List.mem_filter.mpr ⟨hp, ?_⟩
  have h1 : p.1 = k := by simpa using hpk
  rw [h1]
  simpa using hne

theorem dbErase_idem (d : Databag) (m : String) :
    dbErase (dbErase d m) m = dbErase d m := by
  unfold dbErase
  rw [List.filter_filter]
  simp

theorem dbUpdate_other_all (e : Databag) (t : List (String × String)) (k v : String)
    (hall : ∀ p ∈ e, p.1 = k → p.2 = v) (hk : dbHasKey e k = true)
    (hne : ∀ q ∈ t, k ≠ q.1) :
    (∀ p ∈ dbUpdate e t, p.1 = k → p.2 = v) ∧ dbHasKey (dbUpdate e t) k = true := by
  induction t generalizing e with
  | nil => exact ⟨hall, hk⟩
  | cons q t ih =>
    unfold dbUpdate at *
    simp only [List.foldl_cons]
    exact ih (dbSet e q.1 q.2)
      (dbSet_other_all e k v q.1 q.2 hall (hne q (by simp)))
      (dbHasKey_dbSet_mono e q.1 q.2 k hk)
      (fun r hr => hne r (by simp [hr]))

theorem dbUpdate_writes (kvs : List (String × String)) (d : Databag)
    (hnd : (kvs.map Prod.fst).Nodup) :
    ∀ q ∈ kvs, (∀ p ∈ dbUpdate d kvs, p.1 = q.1 → p.2 = q.2) ∧
      dbHasKey (dbUpdate d kvs) q.1 = true := by
  induction kvs generalizing d with
  | nil => intro q hq; simp at hq
  | cons r t ih =>
    rw [List.map_cons, List.nodup_cons] at hnd
    intro q hq
    unfold dbUpdate
    simp only [List.foldl_cons]
    rcases List.mem_cons.mp hq with he | hm
    · subst he
      exact dbUpdate_other_all (dbSet d q.1 q.2) t q.1 q.2
        (dbSet_all d q.1 q.2) (dbHasKey_dbSet_self d q.1 q.2)
        (fun r2 hr2 => fun hcq => hnd.1
          (by rw [hcq]; exact List.mem_map_of_mem Prod.fst hr2))
    · exact ih (dbSet d r.1 r.2) hnd.2 q hm

theorem dbUpdate_id_of (e : Databag) (kvs : List (String × String))
    (h : ∀ q ∈ kvs, (∀ p ∈ e, p.1 = q.1 → p.2 = q.2) ∧ dbHasKey e q.1 = true) :
    dbUpdate e kvs = e := by
  induction kvs with
  | nil => rfl
  | cons r t ih =>
    unfold dbUpdate
    simp only [List.foldl_cons]
    have hr := h r (by simp)
    rw [show dbSet e r.1 r.2 = e from dbSet_already_all e r.1 r.2 hr.1 hr.2]
    exact ih (fun q hq => h q (by simp [hq]))

theorem dbUpdate_idem (d : Databag) (kvs : List (String × String))
    (hnd : (kvs.map Prod.fst).Nodup) :
    dbUpdate (dbUpdate d kvs) kvs = dbUpdate d kvs :=
  dbUpdate_id_of (dbUpdate d kvs) kvs (dbUpdate_writes kvs d hnd)

theorem rel_write_idem (data : List (String × String)) (r : Relation)
    (hnd : (data.map Prod.fst).Nodup) :
    rel_write data (rel_write data r) = rel_write data r := by
  unfold rel_write
  rw [dbUpdate_idem r.localData data hnd]

theorem update_first_relation_idem (l : List Relation)
    (data : List (String × String)) (hnd : (data.map Prod.fst).Nodup) :
    update_first_relation (update_first_relation l data) data =
      update_first_relation l data := by
  cases l with
  | nil => rfl
  | cons r rest =>
    show rel_write data (rel_write data r) :: rest = rel_write data r :: rest
    rw [rel_write_idem data r hnd]

theorem map_rel_write_idem (l : List Relation) (data : List (String × String))
    (hnd : (data.map Prod.fst).Nodup) :
    (l.map (rel_write data)).map (rel_write data) = l.map (rel_write data) := by
  rw [List.map_map]
  apply List.map_congr_left
  intro r hr
  exact rel_write_idem data r hnd

theorem database_relation_payload_congr (x z : CharmState)
    (hc : z.config = x.config) :
    database_relation_payload z = database_relation_payload x := by
  unfold database_relation_payload entity_type database_name entity_permissions
    extra_user_roles extra_group_roles
  rw [hc]

theorem database_relation_payload_nodup (x : CharmState) :
    ((database_relation_payload x).map Prod.fst).Nodup := by
  unfold database_relation_payload
  split <;> simp only [List.map_cons, List.map_nil] <;> decide

theorem topic_relation_payload_congr (x z : CharmState)
    (hc : z.config = x.config) :
    topic_relation_payload z = topic_relation_payload x := by
  unfold topic_relation_payload entity_type topic_name entity_permissions
    extra_user_roles extra_group_roles consumer_group_pfx
  rw [hc]

theorem topic_relation_payload_nodup (x : CharmState) :
    ((topic_relation_payload x).map Prod.fst).Nodup := by
  unfold topic_relation_payload
  split <;> simp only [List.map_cons, List.map_nil] <;> decide

theorem index_relation_payload_congr (x z : CharmState)
    (hc : z.config = x.config) :
    index_relation_payload z = index_relation_payload x := by
  unfold index_relation_payload entity_type index_name entity_permissions
    extra_user_roles extra_group_roles
  rw [hc]

theorem index_relation_payload_nodup (x : CharmState) :
    ((index_relation_payload x).map Prod.fst).Nodup := by
  unfold index_relation_payload
  split <;> simp only [List.map_cons, List.map_nil] <;> decide

theorem pfx_relation_payload_congr (x z : CharmState) (hc : z.config = x.config) :
    pfx_relation_payload z = pfx_relation_payload x := by
  unfold pfx_relation_payload pfx_name
  rw [hc]

theorem mtls_client_cert_congr (x z : CharmState) (hc : z.config = x.config) :
    mtls_client_cert z = mtls_client_cert x := by
  unfold mtls_client_cert
  rw [hc]

theorem database_requirers_ocd (x : CharmState) :
    database_requirers (_on_config_changed_database x) =
      (database_requirers x).map
        (fun p => (p.1, update_first_relation p.2 (database_relation_payload x))) :=
  rfl

theorem databases_active_list_ufr (l : List (String × List Relation))
    (data : List (String × String)) :
    databases_active_list
        (l.map (fun p => (p.1, update_first_relation p.2 data))) =
      databases_active_list l := by
  induction l with
  | nil => rfl
  | cons p t ih =>
    rcases p with ⟨name, rels⟩
    cases rels with
    | nil => simpa using ih
    | cons r rs =>
      have hrem : (rel_write data r).remote = r.remote := rfl
      show (match dbGet (rel_write data r).remote "database" with
          | some v =>
            if v = "" then
              databases_active_list
                (t.map (fun p => (p.1, update_first_relation p.2 data)))
            else (name, v) :: databases_active_list
                (t.map (fun p => (p.1, update_first_relation p.2 data)))
          | none => databases_active_list
              (t.map (fun p => (p.1, update_first_relation p.2 data)))) =
        (match dbGet r.remote "database" with
          | some v =>
            if v = "" then databases_active_list t
            else (name, v) :: databases_active_list t
          | none => databases_active_list t)
      rw [hrem, ih]

theorem databases_active_ocd (x : CharmState) :
    databases_active (_on_config_changed_database x) = databases_active x := by
  unfold databases_active
  rw [database_requirers_ocd, databases_active_list_ufr]

theorem databases_active_sd (x : CharmState) :
    databases_active (step_database x) = databases_active x := by
  unfold step_database
  split
  · exact databases_active_ocd x
  · rfl

theorem topic_active_ocdt (x : CharmState) :
    topic_active (_on_config_changed_topic x) = topic_active x := by
  unfold _on_config_changed_topic
  split
  · rfl
  · unfold topic_active kafka_relation
    cases x.kafka with
    | nil => rfl
    | cons r rest => rfl

theorem topic_active_st (x : CharmState) :
    topic_active (step_topic x) = topic_active x := by
  unfold step_topic
  split
  · exact topic_active_ocdt x
  · rfl

theorem index_active_ocdi (x : CharmState) :
    index_active (_on_config_changed_index x) = index_active x := by
  unfold _on_config_changed_index index_active opensearch_relation
  cases x.opensearch with
  | nil => rfl
  | cons r rest => rfl

theorem index_active_si (x : CharmState) :
    index_active (step_index x) = index_active x := by
  unfold step_index
  split
  · exact index_active_ocdi x
  · rfl

theorem ocd_database_written_id (x z : CharmState)
    (hc : z.config = x.config)
    (hd : z.dbs = (_on_config_changed_database x).dbs) :
    _on_config_changed_database z = z := by
  have hpay : database_relation_payload z = database_relation_payload x :=
    database_relation_payload_congr x z hc
  have hnd := database_relation_payload_nodup x
  have hm : update_first_relation z.dbs.mysql (database_relation_payload z) =
      z.dbs.mysql := by
    rw [hpay, hd]
    exact update_first_relation_idem x.dbs.mysql (database_relation_payload x) hnd
  have hmo : update_first_relation z.dbs.mongodb (database_relation_payload z) =
      z.dbs.mongodb := by
    rw [hpay, hd]
    exact update_first_relation_idem x.dbs.mongodb (database_relation_payload x) hnd
  have hpg : update_first_relation z.dbs.postgresql (database_relation_payload z) =
      z.dbs.postgresql := by
    rw [hpay, hd]
    exact update_first_relation_idem x.dbs.postgresql (database_relation_payload x) hnd
  have hms : update_first_relation z.dbs.mongos (database_relation_payload z) =
      z.dbs.mongos := by
    rw [hpay, hd]
    exact update_first_relation_idem x.dbs.mongos (database_relation_payload x) hnd
  have hzk : update_first_relation z.dbs.zookeeper (database_relation_payload z) =
      z.dbs.zookeeper := by
    rw [hpay, hd]
    exact update_first_relation_idem x.dbs.zookeeper (database_relation_payload x) hnd
  have hky : update_first_relation z.dbs.kyuubi (database_relation_payload z) =
      z.dbs.kyuubi := by
    rw [hpay, hd]
    exact update_first_relation_idem x.dbs.kyuubi (database_relation_payload x) hnd
  show ({ z with dbs :=
    { mysql := update_first_relation z.dbs.mysql (database_relation_payload z)
      mongodb := update_first_relation z.dbs.mongodb (database_relation_payload z)
      postgresql := update_first_relation z.dbs.postgresql (database_relation_payload z)
      mongos := update_first_relation z.dbs.mongos (database_relation_payload z)
      zookeeper := update_first_relation z.dbs.zookeeper (database_relation_payload z)
      kyuubi := update_first_relation z.dbs.kyuubi (database_relation_payload z) } } :
    CharmState) = z
  rw [hm, hmo, hpg, hms, hzk, hky]

theorem step_database_written_id (x z : CharmState)
    (hc : z.config = x.config)
    (hd : z.dbs = (step_database x).dbs) :
    step_database z = z := by
  have hdn : database_name z = database_name x := by
    unfold database_name
    rw [hc]
  have hda : databases_active z = databases_active x := by
    rw [databases_active_congr z (step_database x) hd, databases_active_sd]
  unfold step_database at hd ⊢
  by_cases hg : (optTruthy (database_name x) && (databases_active x).isEmpty) = true
  · rw [if_pos (show (optTruthy (database_name z) &&
        (databases_active z).isEmpty) = true by rw [hdn, hda]; exact hg)]
    rw [if_pos hg] at hd
    exact ocd_database_written_id x z hc hd
  · rw [if_neg (show ¬(optTruthy (database_name z) &&
        (databases_active z).isEmpty) = true by rw [hdn, hda]; exact hg)]

theorem ocd_topic_written_id (x z : CharmState)
    (hc : z.config = x.config)
    (hk : z.kafka = (_on_config_changed_topic x).kafka) :
    _on_config_changed_topic z = z := by
  have hpay : topic_relation_payload z = topic_relation_payload x :=
    topic_relation_payload_congr x z hc
  have htn : topic_name z = topic_name x := by
    unfold topic_name
    rw [hc]
  unfold _on_config_changed_topic at hk ⊢
  by_cases ht : is_topic_value_acceptable ((topic_name x).getD "") = true
  · rw [if_neg (show ¬(!is_topic_value_acceptable ((topic_name z).getD "")) = true
      by rw [htn]; simp [ht])]
    rw [if_neg (by simp [ht])] at hk
    have hmap : z.kafka.map (rel_write (topic_relation_payload z)) = z.kafka := by
      rw [hpay, hk]
      exact map_rel_write_idem x.kafka (topic_relation_payload x)
        (topic_relation_payload_nodup x)
    rw [hmap]
  · rw [if_pos (show (!is_topic_value_acceptable ((topic_name z).getD "")) = true
      by rw [htn]; simp [ht])]

theorem step_topic_written_id (x z : CharmState)
    (hc : z.config = x.config)
    (hk : z.kafka = (step_topic x).kafka) :
    step_topic z = z := by
  have htn : topic_name z = topic_name x := by
    unfold topic_name
    rw [hc]
  have hta : topic_active z = topic_active x := by
    rw [topic_active_congr z (step_topic x) hk, topic_active_st]
  unfold step_topic at hk ⊢
  by_cases hg : (optTruthy (topic_name x) && !optTruthy (topic_active x)) = true
  · rw [if_pos (show (optTruthy (topic_name z) &&
        !optTruthy (topic_active z)) = true by rw [htn, hta]; exact hg)]
    rw [if_pos hg] at hk
    exact ocd_topic_written_id x z hc hk
  · rw [if_neg (show ¬(optTruthy (topic_name z) &&
        !optTruthy (topic_active z)) = true by rw [htn, hta]; exact hg)]

theorem ocd_index_written_id (x z : CharmState)
    (hc : z.config = x.config)
    (ho : z.opensearch = (_on_config_changed_index x).opensearch) :
    _on_config_changed_index z = z := by
  have hpay : index_relation_payload z = index_relation_payload x :=
    index_relation_payload_congr x z hc
  have hmap : z.opensearch.map (rel_write (index_relation_payload z)) =
      z.opensearch := by
    rw [hpay, ho]
    exact map_rel_write_idem x.opensearch (index_relation_payload x)
      (index_relation_payload_nodup x)
  show ({ z with opensearch := z.opensearch.map (rel_write (index_relation_payload z)) } : CharmState) = z
  rw [hmap]

theorem step_index_written_id (x z : CharmState)
    (hc : z.config = x.config)
    (ho : z.opensearch = (step_index x).opensearch) :
    step_index z = z := by
  have hin : index_name z = index_name x := by
    unfold index_name
    rw [hc]
  have hia : index_active z = index_active x := by
    rw [index_active_congr z (step_index x) ho, index_active_si]
  unfold step_index at ho ⊢
  by_cases hg : (optTruthy (index_name x) && !optTruthy (index_active x)) = true
  · rw [if_pos (show (optTruthy (index_name z) &&
        !optTruthy (index_active z)) = true by rw [hin, hia]; exact hg)]
    rw [if_pos hg] at ho
    exact ocd_index_written_id x z hc ho
  · rw [if_neg (show ¬(optTruthy (index_name z) &&
        !optTruthy (index_active z)) = true by rw [hin, hia]; exact hg)]

theorem etcd_write_one_idem (cert : Option String) (pv : String) (r : Relation) :
    set_mtls_cert_rel cert (rel_write [("prefix", pv)]
      (set_mtls_cert_rel cert (rel_write [("prefix", pv)] r))) =
      set_mtls_cert_rel cert (rel_write [("prefix", pv)] r) := by
  cases cert with
  | some c =>
    have h1 : dbSet (dbSet (dbSet (dbSet r.localData "prefix" pv) "mtls-cert" c)
        "prefix" pv) "mtls-cert" c =
        dbSet (dbSet r.localData "prefix" pv) "mtls-cert" c := by
      have ha := dbSet_other_all (dbSet r.localData "prefix" pv) "prefix" pv
        "mtls-cert" c (dbSet_all r.localData "prefix" pv) (by decide)
      have hk := dbHasKey_dbSet_mono (dbSet r.localData "prefix" pv) "mtls-cert" c
        "prefix" (dbHasKey_dbSet_self r.localData "prefix" pv)
      rw [dbSet_already_all _ "prefix" pv ha hk]
      exact dbSet_already_all _ "mtls-cert" c
        (dbSet_all (dbSet r.localData "prefix" pv) "mtls-cert" c)
        (dbHasKey_dbSet_self (dbSet r.localData "prefix" pv) "mtls-cert" c)
    show ({ remote := r.remote, localData := dbSet (dbSet (dbSet (dbSet r.localData "prefix" pv) "mtls-cert" c) "prefix" pv) "mtls-cert" c } : Relation) =
      { remote := r.remote, localData := dbSet (dbSet r.localData "prefix" pv) "mtls-cert" c }
    rw [h1]
  | none =>
    have h1 : dbErase (dbSet (dbErase (dbSet r.localData "prefix" pv) "mtls-cert")
        "prefix" pv) "mtls-cert" =
        dbErase (dbSet r.localData "prefix" pv) "mtls-cert" := by
      have ha := dbErase_all (dbSet r.localData "prefix" pv) "prefix" pv
        "mtls-cert" (dbSet_all r.localData "prefix" pv)
      have hk := dbHasKey_dbErase_of_ne (dbSet r.localData "prefix" pv) "prefix"
        "mtls-cert" (dbHasKey_dbSet_self r.localData "prefix" pv) (by decide)
      rw [dbSet_already_all _ "prefix" pv ha hk]
      exact dbErase_idem _ "mtls-cert"
    show ({ remote := r.remote, localData := dbErase (dbSet (dbErase (dbSet r.localData "prefix" pv) "mtls-cert") "prefix" pv) "mtls-cert" } : Relation) =
      { remote := r.remote, localData := dbErase (dbSet r.localData "prefix" pv) "mtls-cert" }
    rw [h1]

theorem optTruthy_getD (o : Option String) (h : optTruthy o = true) :
    optTruthy (some (o.getD "")) = true := by
  cases o with
  | none => exact absurd h (by simp [optTruthy])
  | some w => exact h

theorem pfx_active_written (z : CharmState) (cert : Option String) (pv : String)
    (l : List Relation)
    (hz : z.etcd = l.map (fun r =>
      set_mtls_cert_rel cert (rel_write [("prefix", pv)] r)))
    (hs : z.hasSecrets = true) (hne : l.isEmpty = false) :
    pfx_active z = some pv := by
  unfold pfx_active etcd_relation
  rw [hs, hz]
  cases l with
  | nil => simp at hne
  | cons r t =>
    show dbGet (set_mtls_cert_rel cert
      (rel_write [("prefix", pv)] r)).localData "prefix" = some pv
    cases cert with
    | some c =>
      show dbGet (dbSet (dbSet r.localData "prefix" pv) "mtls-cert" c) "prefix" =
        some pv
      rw [dbGet_dbSet_ne _ "mtls-cert" "prefix" c (by decide)]
      exact dbGet_dbSet_self r.localData "prefix" pv
    | none =>
      show dbGet (dbErase (dbSet r.localData "prefix" pv) "mtls-cert") "prefix" =
        some pv
      rw [dbGet_dbErase_ne _ "mtls-cert" "prefix" (by decide)]
      exact dbGet_dbSet_self r.localData "prefix" pv

theorem ocd_pfx_written_id (x z y : CharmState)
    (h : _on_config_changed_pfx x = some y)
    (hc : z.config = x.config) (he : z.etcd = y.etcd)
    (hs : z.hasSecrets = x.hasSecrets) :
    _on_config_changed_pfx z = some z := by
  unfold _on_config_changed_pfx at h ⊢
  cases hsx : x.hasSecrets with
  | false =>
    rw [if_pos (by simp [hsx])] at h
    exact absurd h (by simp)
  | true =>
    rw [if_neg (by simp [hsx])] at h
    rw [if_neg (by simp [hs, hsx])]
    by_cases hee : x.etcd.isEmpty = true
    · rw [if_pos hee] at h
      have hy : y = x := by
        injection h with h2
        exact h2.symm
      rw [if_pos (by rw [he, hy]; exact hee)]
    · rw [if_neg hee] at h
      cases hm : mtls_client_cert x with
      | none =>
        rw [hm] at h
        exact absurd h (by simp)
      | some cert =>
        rw [hm] at h
        have hy : y = { x with etcd := x.etcd.map (fun r =>
            set_mtls_cert_rel cert (rel_write (pfx_relation_payload x) r)) } := by
          injection h with h2
          exact h2.symm
        have hze : z.etcd = x.etcd.map (fun r =>
            set_mtls_cert_rel cert (rel_write (pfx_relation_payload x) r)) := by
          rw [he, hy]
        have hzne : z.etcd.isEmpty = false := by
          rw [hze]
          cases hxe : x.etcd with
          | nil => rw [hxe] at hee; exact absurd rfl hee
          | cons a t => simp
        rw [if_neg (by simp [hzne])]
        rw [mtls_client_cert_congr x z hc, hm]
        have hplz : pfx_relation_payload z = pfx_relation_payload x :=
          pfx_relation_payload_congr x z hc
        have hmapz : z.etcd.map (fun r => set_mtls_cert_rel cert
            (rel_write (pfx_relation_payload z) r)) = z.etcd := by
          rw [hplz, hze, List.map_map]
          apply List.map_congr_left
          intro r hr
          exact etcd_write_one_idem cert ((pfx_name x).getD "") r
        show some ({ z with etcd := z.etcd.map (fun r => set_mtls_cert_rel cert (rel_write (pfx_relation_payload z) r)) } : CharmState) = some z
        rw [hmapz]

theorem step_pfx_written_id (x z y : CharmState)
    (h : step_pfx x = some y)
    (hc : z.config = x.config) (he : z.etcd = y.etcd)
    (hs : z.hasSecrets = x.hasSecrets) :
    step_pfx z = some z := by
  have hpn : pfx_name z = pfx_name x := by
    unfold pfx_name
    rw [hc]
  unfold step_pfx at h ⊢
  by_cases hg : optTruthy (pfx_name x) = true
  case neg =>
    rw [if_neg (show ¬optTruthy (pfx_name z) = true by rw [hpn]; exact hg)]
  case pos =>
  rw [if_pos (show optTruthy (pfx_name z) = true by rw [hpn]; exact hg)]
  rw [if_pos hg] at h
  by_cases hpa : optTruthy (pfx_active x) = true
  · rw [if_neg (by simp [hpa])] at h
    cases hm : mtls_client_cert x with
    | none =>
      rw [hm] at h
      exact absurd h (by simp)
    | some c =>
      rw [hm] at h
      have h2 : (if optTruthy c = true then _on_config_changed_pfx x else some x) = some y := h
      by_cases hoc : optTruthy c = true
      · rw [if_pos hoc] at h2
        have h0 := h2
        unfold _on_config_changed_pfx at h2
        cases hsx : x.hasSecrets with
        | false =>
          rw [if_pos (by simp [hsx])] at h2
          exact absurd h2 (by simp)
        | true =>
          rw [if_neg (by simp [hsx])] at h2
          by_cases hee : x.etcd.isEmpty = true
          · rw [if_pos hee] at h2
            have hy : y = x := by
              injection h2 with h3
              exact h3.symm
            have hpaz : optTruthy (pfx_active z) = true := by
              rw [pfx_active_congr z x (by rw [he, hy]) hs]
              exact hpa
            rw [if_neg (by simp [hpaz])]
            rw [mtls_client_cert_congr x z hc, hm]
            show (if optTruthy c = true then _on_config_changed_pfx z else some z) = some z
            rw [if_pos hoc]
            exact ocd_pfx_written_id x z y h0 hc he hs
          · rw [if_neg hee] at h2
            cases hm2 : mtls_client_cert x with
            | none =>
              rw [hm2] at h2
              exact absurd h2 (by simp)
            | some cert2 =>
              rw [hm2] at h2
              have hy : y = { x with etcd := x.etcd.map (fun r => set_mtls_cert_rel cert2 (rel_write (pfx_relation_payload x) r)) } := by
                injection h2 with h3
                exact h3.symm
              have hpaz : optTruthy (pfx_active z) = true := by
                rw [pfx_active_written z cert2 ((pfx_name x).getD "") x.etcd (by rw [he, hy]; rfl) (by rw [hs, hsx]) (by simpa using hee)]
                exact optTruthy_getD (pfx_name x) hg
              rw [if_neg (by simp [hpaz])]
              rw [mtls_client_cert_congr x z hc, hm]
              show (if optTruthy c = true then _on_config_changed_pfx z else some z) = some z
              rw [if_pos hoc]
              exact ocd_pfx_written_id x z y h0 hc he hs
      · rw [if_neg hoc] at h2
        have hy : y = x := by
          injection h2 with h3
          exact h3.symm
        have hpaz : optTruthy (pfx_active z) = true := by
          rw [pfx_active_congr z x (by rw [he, hy]) hs]
          exact hpa
        rw [if_neg (by simp [hpaz])]
        rw [mtls_client_cert_congr x z hc, hm]
        show (if optTruthy c = true then _on_config_changed_pfx z else some z) = some z
        rw [if_neg hoc]
  · rw [if_pos (by simp [hpa])] at h
    have h0 := h
    unfold _on_config_changed_pfx at h
    cases hsx : x.hasSecrets with
    | false =>
      rw [if_pos (by simp [hsx])] at h
      exact absurd h (by simp)
    | true =>
      rw [if_neg (by simp [hsx])] at h
      by_cases hee : x.etcd.isEmpty = true
      · rw [if_pos hee] at h
        have hy : y = x := by
          injection h with h3
          exact h3.symm
        have hpaz : optTruthy (pfx_active z) = false := by
          rw [pfx_active_congr z x (by rw [he, hy]) hs]
          simpa using hpa
        rw [if_pos (by simp [hpaz])]
        exact ocd_pfx_written_id x z y h0 hc he hs
      · rw [if_neg hee] at h
        cases hm : mtls_client_cert x with
        | none =>
          rw [hm] at h
          exact absurd h (by simp)
        | some cert =>
          rw [hm] at h
          have hy : y = { x with etcd := x.etcd.map (fun r => set_mtls_cert_rel cert (rel_write (pfx_relation_payload x) r)) } := by
            injection h with h3
            exact h3.symm
          have hpaz : optTruthy (pfx_active z) = true := by
            rw [pfx_active_written z cert ((pfx_name x).getD "") x.etcd (by rw [he, hy]; rfl) (by rw [hs, hsx]) (by simpa using hee)]
            exact optTruthy_getD (pfx_name x) hg
          rw [if_neg (by simp [hpaz])]
          rw [mtls_client_cert_congr x z hc, hm]
          show (if optTruthy cert = true then _on_config_changed_pfx z else some z) = some z
          by_cases hoc : optTruthy cert = true
          · rw [if_pos hoc]
            exact ocd_pfx_written_id x z y h0 hc he hs
          · rw [if_neg hoc]

theorem reconcile_writes_fix (x y z : CharmState)
    (h : reconcile_writes x = some y)
    (hc : z.config = x.config) (hd : z.dbs = y.dbs) (hk : z.kafka = y.kafka)
    (ho : z.opensearch = y.opensearch) (he : z.etcd = y.etcd)
    (hs : z.hasSecrets = x.hasSecrets) :
    reconcile_writes z = some z := by
  unfold reconcile_writes at h ⊢
  obtain ⟨c1, k1, o1, e1, -, -, -, -, h1, -, -⟩ := step_database_untouched x
  obtain ⟨c2, d2, o2, e2, -, -, -, -, h2, -, -⟩ :=
    step_topic_untouched (step_database x)
  obtain ⟨c3, d3, k3, e3, -, -, -, -, h3, -, -⟩ :=
    step_index_untouched (step_topic (step_database x))
  obtain ⟨c4, d4, k4, o4, -, -, -, -, h4, -, -⟩ := step_pfx_untouched _ _ h
  have hz1 : step_database z = z := by
    apply step_database_written_id x z hc
    rw [hd, d4, d3, d2]
  have hz2 : step_topic z = z := by
    apply step_topic_written_id (step_database x) z (by rw [hc, ← c1])
    rw [hk, k4, k3]
  have hz3 : step_index z = z := by
    apply step_index_written_id (step_topic (step_database x)) z
      (by rw [hc, ← c1, ← c2])
    rw [ho, o4]
  have hz4 : step_pfx z = some z :=
    step_pfx_written_id (step_index (step_topic (step_database x))) z y h
      (by rw [hc, ← c1, ← c2, ← c3]) he (by rw [hs, ← h1, ← h2, ← h3])
  rw [hz1, hz2, hz3]
  exact hz4

theorem check_creds_ufr (l : List Relation) (data : List (String × String)) :
    _check_for_credentials (update_first_relation l data) =
      _check_for_credentials l := by
  cases l with
  | nil => rfl
  | cons r rest => rfl

theorem any_creds_ufr (l : List (String × List Relation))
    (data : List (String × String)) :
    (l.map (fun p => (p.1, update_first_relation p.2 data))).any
      (fun p => _check_for_credentials p.2) =
      l.any (fun p => _check_for_credentials p.2) := by
  induction l with
  | nil => rfl
  | cons p t ih =>
    simp only [List.map_cons, List.any_cons, ih, check_creds_ufr]

theorem is_database_related_ocd (x : CharmState) :
    is_database_related (_on_config_changed_database x) =
      is_database_related x := by
  unfold is_database_related
  rw [database_requirers_ocd]
  exact any_creds_ufr (database_requirers x) (database_relation_payload x)

theorem is_database_related_sd (x : CharmState) :
    is_database_related (step_database x) = is_database_related x := by
  unfold step_database
  split
  · exact is_database_related_ocd x
  · rfl

theorem first_active_requirer_ufr (l : List (String × List Relation))
    (data : List (String × String)) :
    first_active_requirer (l.map (fun p => (p.1, update_first_relation p.2 data))) =
      (first_active_requirer l).map (rel_write data) := by
  induction l with
  | nil => rfl
  | cons p t ih =>
    rcases p with ⟨name, rels⟩
    cases rels with
    | nil => simpa using ih
    | cons r rs => rfl

theorem gav_ocd_database (x : CharmState) (key : String) :
    _get_active_value (_on_config_changed_database x) key =
      _get_active_value x key := by
  unfold _get_active_value
  rw [database_requirers_ocd, first_active_requirer_ufr]
  cases hf : first_active_requirer (database_requirers x) with
  | some r => rfl
  | none => rfl

theorem role_info_ocd_database (x : CharmState) :
    _changes_role_info (_on_config_changed_database x) = _changes_role_info x := by
  unfold _changes_role_info entity_type_active extra_user_roles_active
    extra_group_roles_active
  rw [gav_ocd_database x "entity-type", gav_ocd_database x "extra-user-roles",
    gav_ocd_database x "extra-group-roles"]
  rfl

theorem role_info_sd (x : CharmState) :
    _changes_role_info (step_database x) = _changes_role_info x := by
  unfold step_database
  split
  · exact role_info_ocd_database x
  · rfl

theorem check_creds_map_rw (l : List Relation) (data : List (String × String)) :
    _check_for_credentials (l.map (rel_write data)) = _check_for_credentials l := by
  induction l with
  | nil => rfl
  | cons r t ih =>
    unfold _check_for_credentials at ih ⊢
    simp only [List.map_cons, List.any_cons, ih]
    rfl

theorem is_kafka_related_ocdt (x : CharmState) :
    is_kafka_related (_on_config_changed_topic x) = is_kafka_related x := by
  unfold _on_config_changed_topic
  split
  · rfl
  · unfold is_kafka_related
    exact check_creds_map_rw x.kafka (topic_relation_payload x)

theorem is_kafka_related_st (x : CharmState) :
    is_kafka_related (step_topic x) = is_kafka_related x := by
  unfold step_topic
  split
  · exact is_kafka_related_ocdt x
  · rfl

theorem gav_ocd_topic (x : CharmState) (key : String) :
    _get_active_value (_on_config_changed_topic x) key =
      _get_active_value x key := by
  unfold _on_config_changed_topic
  split
  · rfl
  · unfold _get_active_value
    have hdr : database_requirers { x with kafka := x.kafka.map (rel_write (topic_relation_payload x)) } = database_requirers x := rfl
    rw [hdr]
    cases hf : first_active_requirer (database_requirers x) with
    | some r => rfl
    | none =>
      unfold kafka_relation
      cases x.kafka with
      | nil => rfl
      | cons r rest => rfl

theorem role_info_ocdt (x : CharmState) :
    _changes_role_info (_on_config_changed_topic x) = _changes_role_info x := by
  unfold _changes_role_info entity_type_active extra_user_roles_active
    extra_group_roles_active
  rw [gav_ocd_topic x "entity-type", gav_ocd_topic x "extra-user-roles",
    gav_ocd_topic x "extra-group-roles"]
  unfold _on_config_changed_topic
  split <;> rfl

theorem role_info_st (x : CharmState) :
    _changes_role_info (step_topic x) = _changes_role_info x := by
  unfold step_topic
  split
  · exact role_info_ocdt x
  · rfl

theorem is_opensearch_related_ocdi (x : CharmState) :
    is_opensearch_related (_on_config_changed_index x) = is_opensearch_related x := by
  unfold is_opensearch_related
  exact check_creds_map_rw x.opensearch (index_relation_payload x)

theorem is_opensearch_related_si (x : CharmState) :
    is_opensearch_related (step_index x) = is_opensearch_related x := by
  unfold step_index
  split
  · exact is_opensearch_related_ocdi x
  · rfl

theorem gav_ocd_index (x : CharmState) (key : String) :
    _get_active_value (_on_config_changed_index x) key =
      _get_active_value x key := by
  unfold _on_config_changed_index _get_active_value
  have hdr : database_requirers { x with opensearch := x.opensearch.map (rel_write (index_relation_payload x)) } = database_requirers x := rfl
  rw [hdr]
  cases hf : first_active_requirer (database_requirers x) with
  | some r => rfl
  | none =>
    have hkf : kafka_relation { x with opensearch := x.opensearch.map (rel_write (index_relation_payload x)) } = kafka_relation x := rfl
    rw [hkf]
    cases hkr : kafka_relation x with
    | some r => rfl
    | none =>
      unfold opensearch_relation
      cases x.opensearch with
      | nil => rfl
      | cons r rest => rfl

theorem role_info_ocdi (x : CharmState) :
    _changes_role_info (_on_config_changed_index x) = _changes_role_info x := by
  unfold _changes_role_info entity_type_active extra_user_roles_active
    extra_group_roles_active
  rw [gav_ocd_index x "entity-type", gav_ocd_index x "extra-user-roles",
    gav_ocd_index x "extra-group-roles"]
  rfl

theorem role_info_si (x : CharmState) :
    _changes_role_info (step_index x) = _changes_role_info x := by
  unfold step_index
  split
  · exact role_info_ocdi x
  · rfl

theorem is_etcd_related_write (x : CharmState) (cert : Option String) :
    is_etcd_related { x with etcd := x.etcd.map (fun r => set_mtls_cert_rel cert (rel_write (pfx_relation_payload x) r)) } = is_etcd_related x := by
  unfold is_etcd_related etcd_relation
  have hhs : ({ x with etcd := x.etcd.map (fun r => set_mtls_cert_rel cert (rel_write (pfx_relation_payload x) r)) } : CharmState).hasSecrets = x.hasSecrets := rfl
  have het : ({ x with etcd := x.etcd.map (fun r => set_mtls_cert_rel cert (rel_write (pfx_relation_payload x) r)) } : CharmState).etcd = x.etcd.map (fun r => set_mtls_cert_rel cert (rel_write (pfx_relation_payload x) r)) := rfl
  rw [hhs, het]
  cases hsx : x.hasSecrets with
  | false => rfl
  | true =>
    cases x.etcd with
    | nil => rfl
    | cons r t =>
      cases cert with
      | some c => rfl
      | none => rfl

theorem gav_etcd_write (x : CharmState) (cert : Option String) (key : String)
    (hk1 : key ≠ "prefix") (hk2 : key ≠ "mtls-cert") :
    _get_active_value { x with etcd := x.etcd.map (fun r => set_mtls_cert_rel cert (rel_write (pfx_relation_payload x) r)) } key =
      _get_active_value x key := by
  unfold _get_active_value
  have hdr : database_requirers { x with etcd := x.etcd.map (fun r => set_mtls_cert_rel cert (rel_write (pfx_relation_payload x) r)) } = database_requirers x := rfl
  rw [hdr]
  cases hf : first_active_requirer (database_requirers x) with
  | some r => rfl
  | none =>
    have hkf : kafka_relation { x with etcd := x.etcd.map (fun r => set_mtls_cert_rel cert (rel_write (pfx_relation_payload x) r)) } = kafka_relation x := rfl
    rw [hkf]
    cases hkr : kafka_relation x with
    | some r => rfl
    | none =>
      have hor : opensearch_relation { x with etcd := x.etcd.map (fun r => set_mtls_cert_rel cert (rel_write (pfx_relation_payload x) r)) } = opensearch_relation x := rfl
      rw [hor]
      cases hos : opensearch_relation x with
      | some r => rfl
      | none =>
        unfold etcd_relation
        have hhs : ({ x with etcd := x.etcd.map (fun r => set_mtls_cert_rel cert (rel_write (pfx_relation_payload x) r)) } : CharmState).hasSecrets = x.hasSecrets := rfl
        have het : ({ x with etcd := x.etcd.map (fun r => set_mtls_cert_rel cert (rel_write (pfx_relation_payload x) r)) } : CharmState).etcd = x.etcd.map (fun r => set_mtls_cert_rel cert (rel_write (pfx_relation_payload x) r)) := rfl
        rw [hhs, het]
        cases hsx : x.hasSecrets with
        | false => rfl
        | true =>
          cases x.etcd with
          | nil => rfl
          | cons r t =>
            cases cert with
            | some c =>
              show dbGet (dbSet (dbSet r.localData "prefix" ((pfx_name x).getD "")) "mtls-cert" c) key = dbGet r.localData key
              rw [dbGet_dbSet_ne _ "mtls-cert" key c hk2,
                dbGet_dbSet_ne _ "prefix" key ((pfx_name x).getD "") hk1]
            | none =>
              show dbGet (dbErase (dbSet r.localData "prefix" ((pfx_name x).getD "")) "mtls-cert") key = dbGet r.localData key
              rw [dbGet_dbErase_ne _ "mtls-cert" key hk2,
                dbGet_dbSet_ne _ "prefix" key ((pfx_name x).getD "") hk1]

theorem role_info_etcd_write (x : CharmState) (cert : Option String) :
    _changes_role_info { x with etcd := x.etcd.map (fun r => set_mtls_cert_rel cert (rel_write (pfx_relation_payload x) r)) } = _changes_role_info x := by
  unfold _changes_role_info entity_type_active extra_user_roles_active
    extra_group_roles_active
  rw [gav_etcd_write x cert "entity-type" (by decide) (by decide),
    gav_etcd_write x cert "extra-user-roles" (by decide) (by decide),
    gav_etcd_write x cert "extra-group-roles" (by decide) (by decide)]
  rfl

theorem ocd_pfx_shape (x y : CharmState) (h : _on_config_changed_pfx x = some y) :
    y = x ∨ ∃ cert, y = { x with etcd := x.etcd.map (fun r => set_mtls_cert_rel cert (rel_write (pfx_relation_payload x) r)) } := by
  unfold _on_config_changed_pfx at h
  split at h
  · exact absurd h (by simp)
  · split at h
    · cases h
      exact Or.inl rfl
    · cases hm : mtls_client_cert x with
      | none =>
        rw [hm] at h
        exact absurd h (by simp)
      | some cert =>
        rw [hm] at h
        refine Or.inr ⟨cert, ?_⟩
        injection h with h2
        exact h2.symm

theorem step_pfx_shape (x y : CharmState) (h : step_pfx x = some y) :
    y = x ∨ ∃ cert, y = { x with etcd := x.etcd.map (fun r => set_mtls_cert_rel cert (rel_write (pfx_relation_payload x) r)) } := by
  unfold step_pfx at h
  split at h
  · split at h
    · exact ocd_pfx_shape x y h
    · split at h
      · exact absurd h (by simp)
      · split at h
        · exact ocd_pfx_shape x y h
        · cases h
          exact Or.inl rfl
  · cases h
    exact Or.inl rfl

theorem readers_step_pfx (x y : CharmState) (h : step_pfx x = some y) :
    is_database_related y = is_database_related x
    ∧ is_kafka_related y = is_kafka_related x
    ∧ is_opensearch_related y = is_opensearch_related x
    ∧ is_etcd_related y = is_etcd_related x
    ∧ _changes_role_info y = _changes_role_info x
    ∧ topic_active y = topic_active x
    ∧ index_active y = index_active x
    ∧ databases_active y = databases_active x := by
  rcases step_pfx_shape x y h with he | ⟨cert, he⟩
  · subst he
    exact ⟨rfl, rfl, rfl, rfl, rfl, rfl, rfl, rfl⟩
  · subst he
    exact ⟨rfl, rfl, rfl, is_etcd_related_write x cert,
      role_info_etcd_write x cert, rfl, rfl, rfl⟩

theorem readers_sd_all (x : CharmState) :
    is_database_related (step_database x) = is_database_related x
    ∧ is_kafka_related (step_database x) = is_kafka_related x
    ∧ is_opensearch_related (step_database x) = is_opensearch_related x
    ∧ is_etcd_related (step_database x) = is_etcd_related x
    ∧ _changes_role_info (step_database x) = _changes_role_info x
    ∧ topic_active (step_database x) = topic_active x
    ∧ index_active (step_database x) = index_active x
    ∧ databases_active (step_database x) = databases_active x := by
  obtain ⟨c1, k1, o1, e1, -, -, -, -, h1, -, -⟩ := step_database_untouched x
  exact ⟨is_database_related_sd x, is_kafka_related_congr _ x k1,
    is_opensearch_related_congr _ x o1, is_etcd_related_congr _ x e1 h1,
    role_info_sd x, topic_active_congr _ x k1, index_active_congr _ x o1,
    databases_active_sd x⟩

theorem readers_st_all (x : CharmState) :
    is_database_related (step_topic x) = is_database_related x
    ∧ is_kafka_related (step_topic x) = is_kafka_related x
    ∧ is_opensearch_related (step_topic x) = is_opensearch_related x
    ∧ is_etcd_related (step_topic x) = is_etcd_related x
    ∧ _changes_role_info (step_topic x) = _changes_role_info x
    ∧ topic_active (step_topic x) = topic_active x
    ∧ index_active (step_topic x) = index_active x
    ∧ databases_active (step_topic x) = databases_active x := by
  obtain ⟨c2, d2, o2, e2, -, -, -, -, h2, -, -⟩ := step_topic_untouched x
  exact ⟨is_database_related_congr _ x d2, is_kafka_related_st x,
    is_opensearch_related_congr _ x o2, is_etcd_related_congr _ x e2 h2,
    role_info_st x, topic_active_st x, index_active_congr _ x o2,
    databases_active_congr _ x d2⟩

theorem readers_si_all (x : CharmState) :
    is_database_related (step_index x) = is_database_related x
    ∧ is_kafka_related (step_index x) = is_kafka_related x
    ∧ is_opensearch_related (step_index x) = is_opensearch_related x
    ∧ is_etcd_related (step_index x) = is_etcd_related x
    ∧ _changes_role_info (step_index x) = _changes_role_info x
    ∧ topic_active (step_index x) = topic_active x
    ∧ index_active (step_index x) = index_active x
    ∧ databases_active (step_index x) = databases_active x := by
  obtain ⟨c3, d3, k3, e3, -, -, -, -, h3, -, -⟩ := step_index_untouched x
  exact ⟨is_database_related_congr _ x d3, is_kafka_related_congr _ x k3,
    is_opensearch_related_si x, is_etcd_related_congr _ x e3 h3,
    role_info_si x, topic_active_congr _ x k3, index_active_si x,
    databases_active_congr _ x d3⟩

theorem status_readers_preserved (x y : CharmState)
    (h : reconcile_writes x = some y) :
    is_database_related y = is_database_related x
    ∧ is_kafka_related y = is_kafka_related x
    ∧ is_opensearch_related y = is_opensearch_related x
    ∧ is_etcd_related y = is_etcd_related x
    ∧ _changes_role_info y = _changes_role_info x
    ∧ topic_active y = topic_active x
    ∧ index_active y = index_active x
    ∧ databases_active y = databases_active x := by
  unfold reconcile_writes at h
  obtain ⟨d1, k1, o1, e1, r1, t1, i1, a1⟩ := readers_sd_all x
  obtain ⟨d2, k2, o2, e2, r2, t2, i2, a2⟩ := readers_st_all (step_database x)
  obtain ⟨d3, k3, o3, e3, r3, t3, i3, a3⟩ :=
    readers_si_all (step_topic (step_database x))
  obtain ⟨d4, k4, o4, e4, r4, t4, i4, a4⟩ := readers_step_pfx _ y h
  refine ⟨?_, ?_, ?_, ?_, ?_, ?_, ?_, ?_⟩
  · rw [d4, d3, d2, d1]
  · rw [k4, k3, k2, k1]
  · rw [o4, o3, o2, o1]
  · rw [e4, e3, e2, e1]
  · rw [r4, r3, r2, r1]
  · rw [t4, t3, t2, t1]
  · rw [i4, i3, i2, i1]
  · rw [a4, a3, a2, a1]

/-- Claim C6 (amended): the propagation of `_on_config_changed` is
idempotent even though its status is not.  If a run of the handler
succeeds, a second run with unchanged inputs performs no relation-data
write at all: it returns the same state with only the unit status
refreshed.  The second status moreover equals the first whenever the
first run did not change the locally recorded etcd prefix — the only
reader of data the handler itself writes. -/
theorem c6_amended_idempotent_writes (s s1 : CharmState)
    (h : _on_config_changed s = some s1) :
    _on_config_changed s1 = some (set_status s1 (get_status s1))
    ∧ (pfx_active s1 = pfx_active s → get_status s1 = s1.unitStatus) := by
  unfold _on_config_changed at h ⊢
  by_cases hl : s.isLeader = true
  · rw [if_neg (show ¬(!(set_status s (get_status s)).isLeader) = true by
      simp [show (set_status s (get_status s)).isLeader = s.isLeader from rfl, hl])] at h
    obtain ⟨hfc, hfa, hfu, hfsec, hfl, hfs, hfp, hft⟩ :=
      reconcile_writes_frame _ _ h
    have hs1l : s1.isLeader = true := by
      rw [hfl]
      exact hl
    constructor
    · rw [if_neg (show ¬(!(set_status s1 (get_status s1)).isLeader) = true by
        simp [show (set_status s1 (get_status s1)).isLeader = s1.isLeader from rfl, hs1l])]
      exact reconcile_writes_fix (set_status s (get_status s)) s1
        (set_status s1 (get_status s1)) h
        (by rw [show (set_status s1 (get_status s1)).config = s1.config from rfl, hfc])
        rfl rfl rfl rfl
        (by rw [show (set_status s1 (get_status s1)).hasSecrets = s1.hasSecrets from rfl, hfs])
    · intro hpa
      obtain ⟨hdr, hkr, hor, her, hrole, hta, hia, hda⟩ :=
        status_readers_preserved _ _ h
      have hgs : get_status s1 = get_status s := by
        apply get_status_congr s1 s
        · exact hfc.trans rfl
        · exact hfs.trans rfl
        · exact hfsec.trans rfl
        · exact hdr.trans rfl
        · exact hkr.trans rfl
        · exact hor.trans rfl
        · exact her.trans rfl
        · exact hrole.trans rfl
        · exact hta.trans rfl
        · exact hia.trans rfl
        · exact hpa
        · exact hda.trans rfl
      rw [hgs, hft]
      rfl
  · have hlf : s.isLeader = false := by
      cases hb : s.isLeader
      · rfl
      · exact absurd hb hl
    rw [if_pos (show (!(set_status s (get_status s)).isLeader) = true by
      rw [show (set_status s (get_status s)).isLeader = s.isLeader from rfl, hlf]; rfl)] at h
    have hs1 : s1 = set_status s (get_status s) := by
      injection h with h2
      exact h2.symm
    subst hs1
    constructor
    · rw [if_pos (show (!(set_status (set_status s (get_status s)) (get_status (set_status s (get_status s)))).isLeader) = true by
        rw [show (set_status (set_status s (get_status s)) (get_status (set_status s (get_status s)))).isLeader = s.isLeader from rfl, hlf]; rfl)]
    · intro hpa
      rfl

/-- Witness for claim C6 (amended): on a concrete leader state the first
run writes the prefix and blocks, and the second run is exactly a status
refresh of the first run's result. -/
theorem c6_amended_witness :
    _on_config_changed c6w_state = some c6w_s1
    ∧ _on_config_changed c6w_s1 = some (set_status c6w_s1 (get_status c6w_s1)) := by
  have h1 : _on_config_changed c6w_state = some c6w_s1 := by decide
  exact ⟨h1, (c6_amended_idempotent_writes c6w_state c6w_s1 h1).1⟩

end DataIntegrator
